import Mathlib

/-!
# Lys engine core: window message pump, frame loop and level loading

A shallow embedding of `Window::pollMessages` (window.cpp) and of
`Engine::run`, `Engine::changeLevel` and `Engine::resize` (engine.cpp),
followed by the properties established about them.

Conventions of the embedding:

* the platform event queue read by `SDL_PollEvent` is a list of events, its
  head being the next event delivered;
* calls that leave the engine (context binding, GL calls, calls into a level
  object, window presentation) are recorded, in order, in the `calls` trace of
  the state; the calls of the loading thread go to `workerCalls`, log lines to
  `logs`. The bodies of the level objects and of the platform are outside the
  files at hand: a recorded call leaves the members of the engine as they are;
* the body of the loading thread is a sequence of seven statements executed one
  at a time by `workerStep`; a frame of the main loop is executed as one step,
  so the two threads interleave between frames;
* time samples are exact rationals, and the product and comparison of the
  update loop are taken exactly: the rounding of the program's finite-precision
  arithmetic is not part of the embedding, and none of the properties
  established below fixes the number of turns of the update loop; the counter
  `_levelUpdates` and the local `seconds` wrap at their moduli;
* a member call through a null pointer, and the destruction of a joinable
  thread, end the execution with a `Fault`; the update loop takes one unit of
  fuel per turn, and running out of it is reported as the fault `exhausted`.
-/

namespace lys

/-! ## Data model -/

/-- Modelled from the spec: the `TimePoint` type is declared outside the files
at hand; time samples are taken as exact rationals (seconds). -/
abbrev TimePoint := ℚ

/-- The view `FixedTimerData` handed out by the timer (`time.current`). -/
structure FixedTimerData where
  current : TimePoint
  delta : TimePoint
deriving DecidableEq

/-- Window size or position, `Metric2(x, y)`. -/
structure Metric2 where
  x : Int
  y : Int
deriving DecidableEq

/-- The message enumeration filled in by `Window::pollMessages`. -/
inductive WindowMessage where
  | NOTHING
  | CLOSE
  | FOCUSGAINED
  | FOCUSLOST
  | WINDOWMOVED
  | WINDOWSIZECHANGED
  | MOUSEMOTION
  | BUTTONDOWN
  | BUTTONUP
  | KEYDOWN
  | KEYUP
deriving DecidableEq

/-- The `window.event` identifier of a platform window event; `OTHER` stands for
every identifier that `pollMessages` sends to its inner `default` branch. -/
inductive WindowEventID where
  | CLOSE
  | FOCUS_GAINED
  | FOCUS_LOST
  | MOVED
  | SIZE_CHANGED
  | OTHER (code : Nat)
deriving DecidableEq

/-- A platform event as read by `pollMessages`: its type and the payload fields
the function looks at; `OTHER` stands for every type handled by the outer
`default` branch. -/
inductive SDL_Event where
  | WINDOWEVENT (event : WindowEventID) (data1 data2 : Int)
  | MOUSEMOTION (x y : Int)
  | MOUSEBUTTONDOWN (button : Nat)
  | MOUSEBUTTONUP (button : Nat)
  | KEYDOWN (scancode : Nat)
  | KEYUP (scancode : Nat)
  | OTHER (type : Nat)
deriving DecidableEq

/-- The window title: a literal text, or the text that `run` writes once per
second, `"Lys FPS: "` followed by `counter.getFPS(now)` for the samples pushed so
far (the counter's arithmetic is outside the files at hand). -/
inductive Title where
  | text (s : String)
  | fps (samples : List TimePoint) (now : TimePoint)
deriving DecidableEq

/-- The fields of `Window` (window.cpp). `event` is the member `_event` that
`SDL_PollEvent` fills; the button and key tables are indexed by platform code. -/
structure Window where
  title : Title
  size : Metric2
  position : Metric2
  mouse : Metric2
  visible : Bool
  focus : Bool
  swapInterval : Int
  buttons : Nat → Bool
  keys : Nat → Bool
  event : Option SDL_Event

/-- What one call of `pollMessages` leaves behind: the returned flag, the
out-parameter `message`, the window, and the platform queue. -/
structure Polled where
  result : Bool
  message : WindowMessage
  window : Window
  queue : List SDL_Event

/-- The function `Window::pollMessages` (window.cpp 99-189). `SDL_PollEvent(&_event)` takes
the head of the queue into `_event` when there is one; the two nested switches
classify it and update the cached state. -/
def Window.pollMessages (w : Window) (queue : List SDL_Event) : Polled :=
  match queue with
  | [] => { result := false, message := .NOTHING, window := w, queue := [] }
  | ev :: rest =>
    let w := { w with event := some ev }
    match ev with
    | .WINDOWEVENT .CLOSE _ _ =>
      { result := true, message := .CLOSE, window := w, queue := rest }
    | .WINDOWEVENT .FOCUS_GAINED _ _ =>
      { result := true, message := .FOCUSGAINED,
        window := { w with focus := true }, queue := rest }
    | .WINDOWEVENT .FOCUS_LOST _ _ =>
      { result := true, message := .FOCUSLOST,
        window := { w with focus := false }, queue := rest }
    | .WINDOWEVENT .MOVED data1 data2 =>
      { result := true, message := .WINDOWMOVED,
        window := { w with position := { x := data1, y := data2 } }, queue := rest }
    | .WINDOWEVENT .SIZE_CHANGED data1 data2 =>
      { result := true, message := .WINDOWSIZECHANGED,
        window := { w with size := { x := data1, y := data2 } }, queue := rest }
    | .WINDOWEVENT (.OTHER _) _ _ =>
      { result := true, message := .NOTHING, window := w, queue := rest }
    | .MOUSEMOTION x y =>
      { result := true, message := .MOUSEMOTION,
        window := { w with mouse := { x := x, y := y } }, queue := rest }
    | .MOUSEBUTTONDOWN button =>
      { result := true, message := .BUTTONDOWN,
        window := { w with buttons := Function.update w.buttons button true },
        queue := rest }
    | .MOUSEBUTTONUP button =>
      { result := true, message := .BUTTONUP,
        window := { w with buttons := Function.update w.buttons button false },
        queue := rest }
    | .KEYDOWN scancode =>
      { result := true, message := .KEYDOWN,
        window := { w with keys := Function.update w.keys scancode true },
        queue := rest }
    | .KEYUP scancode =>
      { result := true, message := .KEYUP,
        window := { w with keys := Function.update w.keys scancode false },
        queue := rest }
    | .OTHER _ =>
      { result := true, message := .NOTHING, window := w, queue := rest }

/-- The window and queue left by one call of `pollMessages`, for repeated
calls. -/
def pollOnce (p : Window × List SDL_Event) : Window × List SDL_Event :=
  ((p.1.pollMessages p.2).window, (p.1.pollMessages p.2).queue)

/-- A level object as the engine sees it: which object it is (`name`) and the
value its `getUPS()` returns. The bodies of `update`, `draw` and `resize` are
outside the files at hand; calls to them are recorded in the trace. -/
structure Level where
  name : String
  ups : Nat
deriving DecidableEq

/-- The two graphics contexts of `_core`: `_core.context` and `_core.loading`. -/
inductive ContextId where
  | context
  | loading
deriving DecidableEq

/-- Modelled from the spec: `GraphicsContext` is declared outside the files at
hand; `getSwapInterval` returns the value last given to `setSwapInterval`, and
the two instances do not share it. -/
structure GraphicsContext where
  swapInterval : Int
deriving DecidableEq

/-- Modelled from the spec: `FPSCounter` is declared outside the files at hand;
`push` records a frame timestamp. -/
structure FPSCounter where
  samples : List TimePoint
deriving DecidableEq

/-- The aggregate `_core`. -/
structure EngineCore where
  window : Window
  counter : FPSCounter
  context : GraphicsContext
  loading : GraphicsContext

/-- What the local pointer `level` of `run` points at when it is not null:
`&_loadingScreen`, or the object held by `_level`. -/
inductive Target where
  | loadingScreen
  | level (l : Level)
deriving DecidableEq

/-- The calls recorded in the trace. `resize` carries the window size found in
the `_core` passed to the level, `update` and `draw` the timer view passed. -/
inductive Call where
  | makeCurrent (c : ContextId)
  | unbindCurrent (c : ContextId)
  | setSwapInterval (c : ContextId) (n : Int)
  | glViewport (x y w h : Int)
  | glClear
  | resize (t : Target) (size : Metric2)
  | update (t : Target) (time : FixedTimerData)
  | draw (t : Target) (time : FixedTimerData)
  | swapBuffers
  | setVisible (visible : Bool)
  | setTitle (title : Title)
  | construct (T : Level)
  | join
deriving DecidableEq

/-- The lines written through `LYS_LOG` and `LYS_LOG_WARNING`. -/
inductive LogLine where
  | loopStarted
  | loopEscaped
  | waitingForThreads
  | changeLevelAborted (T : Level)
deriving DecidableEq

/-- The thread object held by `_loadingThread`: the level type `T` it was
spawned for, the next statement of its body (`pc`, 7 once the body is done) and
whether it has been joined. -/
structure Worker where
  T : Level
  pc : Nat
  joined : Bool
deriving DecidableEq

/-- Ways an execution stops without a result. `nullLevel`: a member call through
a null `level` or `_level`; `nullThread`: `join` through a null
`_loadingThread`; `terminate`: a thread object destroyed while joinable, or
joined twice; `exhausted`: the fuel given to the update loop, or the frame
inputs given to `run`, ended first (a limit of the embedding, not a behaviour of
the program). -/
inductive Fault where
  | nullLevel
  | nullThread
  | terminate
  | exhausted
deriving DecidableEq

/-- Modelled from the spec: the width of `_levelUpdates` is declared outside
the files at hand; the spec gives an unsigned 64-bit counter. -/
def levelUpdatesModulus : Nat := 2 ^ 64

/-- The modulus of the `unsigned int` local `seconds` of `run`. -/
def secondsModulus : Nat := 2 ^ 32

/-- The state an execution works on: the members of `Engine`, the locals of
`run` that live across frames (`message`, `seconds`, `running`), the platform
state (pending events, the context current on the main thread and on the
loading thread) and the traces. -/
structure Engine where
  core : EngineCore
  loadingScreen : Level
  loading : Bool
  swapInterval : Int
  timer : FixedTimerData
  level : Option Level
  levelNew : Bool
  levelStart : TimePoint
  levelUpdates : Nat
  loadingThread : Option Worker
  message : WindowMessage
  seconds : Nat
  running : Bool
  events : List SDL_Event
  mainCurrent : Option ContextId
  workerCurrent : Option ContextId
  calls : List Call
  workerCalls : List Call
  logs : List LogLine

/-! ## Timer and graphics contexts -/

/-- Modelled from the spec: `Timer::reset` (the timer is declared outside the
files at hand) sets the epoch and a zero delta. -/
def timerReset : FixedTimerData := { current := 0, delta := 0 }

/-- Modelled from the spec: `Timer::update` stores the clock sample `now` as
`current` and `now - previous` as `delta`. -/
def timerUpdate (now : TimePoint) (t : FixedTimerData) : FixedTimerData :=
  { current := now, delta := now - t.current }

/-- The call `getSwapInterval()` of one of the two contexts. -/
def getSwapInterval (c : ContextId) (s : Engine) : Int :=
  match c with
  | .context => s.core.context.swapInterval
  | .loading => s.core.loading.swapInterval

/-- The call `setSwapInterval(n)` on one of the two contexts. -/
def setSwapInterval (c : ContextId) (n : Int) (s : Engine) : Engine :=
  match c with
  | .context =>
    { s with core := { s.core with context := { swapInterval := n } },
             calls := s.calls ++ [.setSwapInterval .context n] }
  | .loading =>
    { s with core := { s.core with loading := { swapInterval := n } },
             calls := s.calls ++ [.setSwapInterval .loading n] }

/-- The call `makeCurrent()` of a context, called on the main thread. -/
def makeCurrent (c : ContextId) (s : Engine) : Engine :=
  { s with mainCurrent := some c, calls := s.calls ++ [.makeCurrent c] }

/-- The value of `getUPS()` of the object a non-null `level` pointer points at. -/
def Target.getUPS (s : Engine) : Target → Nat
  | .loadingScreen => s.loadingScreen.ups
  | .level l => l.ups

/-! ## Engine::resize and Engine::changeLevel -/

/-- The function `Engine::resize` (engine.cpp 190-194): `glViewport(0, 0, size.x, size.y)`
with the window's cached size, then `level.resize(_core)`. -/
def resize (level : Target) (s : Engine) : Engine :=
  { s with calls := s.calls ++
      [.glViewport 0 0 s.core.window.size.x s.core.window.size.y,
       .resize level s.core.window.size] }

/-- One statement of the lambda run by the loading thread (engine.cpp 179-186).
The lambda captures `time` by reference, and `time` is the timer's live view, so
statement 2 reads `timer.current` as it is when the statement runs. The
expression `std::make_unique<T>(*(new T))` constructs a `T` and then a copy. -/
def workerStep (s : Engine) : Engine :=
  match s.loadingThread with
  | none => s
  | some w =>
    let s1 := { s with loadingThread := some { w with pc := w.pc + 1 } }
    match w.pc with
    | 0 => { s1 with workerCurrent := some .context,
                     workerCalls := s.workerCalls ++ [.makeCurrent .context] }
    | 1 => { s1 with level := some w.T,
                     workerCalls := s.workerCalls ++ [.construct w.T, .construct w.T] }
    | 2 => { s1 with levelStart := s.timer.current }
    | 3 => { s1 with levelUpdates := 0 }
    | 4 => { s1 with levelNew := true }
    | 5 => { s1 with workerCurrent := none,
                     workerCalls := s.workerCalls ++ [.unbindCurrent .context] }
    | 6 => { s1 with loading := false }
    | _ => s

/-- The loading thread run from its current statement to the end of its body. -/
def workerFinish (s : Engine) : Engine :=
  workerStep^[7] s

/-- The function `Engine::changeLevel<T>` (engine.cpp 162-188), for the call
`changeLevel<T>(_timer.getTimerData())` of the constructor: `time` refers to the
timer's view. Assigning the new thread to `_loadingThread` destroys the thread
object held before, which terminates the program if that thread was never
joined. -/
def changeLevel (T : Level) (s : Engine) : Except Fault Engine :=
  if s.loading then
    .ok { s with logs := s.logs ++ [.changeLevelAborted T] }
  else
    let s1 := makeCurrent .loading { s with loading := true }
    match s1.loadingThread with
    | none => .ok { s1 with loadingThread := some { T := T, pc := 0, joined := false } }
    | some old =>
      if old.joined then
        .ok { s1 with loadingThread := some { T := T, pc := 0, joined := false } }
      else .error .terminate

/-! ## Engine::run -/

/-- Lines 64-83 of `run`: the choice of the frame's `level` and `context` from
one read of `_loading`. A null `_level` gives a null `level` (`none`), which
faults only where it is dereferenced. -/
def selectActive (s : Engine) : Except Fault (Option Target × ContextId × Engine) :=
  if s.loading then
    .ok (some .loadingScreen, .loading, makeCurrent .loading s)
  else
    let s1 := makeCurrent .context s
    if s1.levelNew then
      match s1.level with
      | none => .error .nullLevel
      | some l => .ok (some (.level l), .context, { resize (.level l) s1 with levelNew := false })
    else
      .ok (s1.level.map Target.level, .context, s1)

/-- Lines 85-86 of `run`. -/
def reconcileSwapInterval (ctx : ContextId) (s : Engine) : Engine :=
  if getSwapInterval ctx s ≠ s.swapInterval then
    setSwapInterval ctx s.swapInterval s
  else s

/-- The `switch (message)` of lines 90-112. -/
def handleMessage (level : Option Target) (s : Engine) : Except Fault Engine :=
  match s.message with
  | .CLOSE => .ok { s with running := false }
  | .FOCUSGAINED => .ok { s with swapInterval := 0 }
  | .FOCUSLOST => .ok { s with swapInterval := 1 }
  | .WINDOWSIZECHANGED =>
    match level with
    | none => .error .nullLevel
    | some t => .ok (resize t s)
  | _ => .ok s

/-- The call `_core.window.pollMessages(message)` on the engine state. -/
def pollWindow (s : Engine) : Engine :=
  { s with core := { s.core with window := (s.core.window.pollMessages s.events).window },
           events := (s.core.window.pollMessages s.events).queue,
           message := (s.core.window.pollMessages s.events).message }

/-- The message drain of lines 88-115: poll, handle the message, and leave the
loop at once when the message cleared `running`. -/
def drainMessages (level : Option Target) (s : Engine) : Except Fault Engine :=
  if hp : (s.core.window.pollMessages s.events).result = true then
    match hm : handleMessage level (pollWindow s) with
    | .error e => .error e
    | .ok s2 =>
      if !s2.running then .ok s2
      else drainMessages level s2
  else .ok (pollWindow s)
termination_by s.events.length
decreasing_by
  have hev : s2.events = (s.core.window.pollMessages s.events).queue := by
    unfold handleMessage at hm
    split at hm
    · cases hm; rfl
    · cases hm; rfl
    · cases hm; rfl
    · split at hm
      · cases hm
      · cases hm; rfl
    · cases hm; rfl
  rw [hev]
  unfold Window.pollMessages at hp ⊢
  cases hq : s.events with
  | nil => simp [hq] at hp
  | cons ev rest => dsimp only; split <;> simp

/-- The condition of the `while` of line 125; the rate is read through
`_level`. The product and the comparison are exact here, where the program
rounds them in the arithmetic of `TimePoint`. -/
def updateDue (s : Engine) : Except Fault Bool :=
  match s.level with
  | none => .error .nullLevel
  | some l =>
    .ok (decide ((s.timer.current - s.levelStart) * (l.ups : ℚ) > (s.levelUpdates : ℚ)))

/-- The `while` of lines 125-129: while the condition holds, call `update`
through the frame's `level` and count it; the counter wraps at its modulus. Each
turn of the loop takes one unit of fuel. -/
def updateLoop (level : Target) : Nat → Engine → Except Fault Engine
  | 0, s =>
    match updateDue s with
    | .error e => .error e
    | .ok true => .error .exhausted
    | .ok false => .ok s
  | fuel + 1, s =>
    match updateDue s with
    | .error e => .error e
    | .ok true =>
      updateLoop level fuel
        { s with calls := s.calls ++ [.update level s.timer],
                 levelUpdates := (s.levelUpdates + 1) % levelUpdatesModulus }
    | .ok false => .ok s

/-- Lines 122-130 of `run`. -/
def fixedUpdate (fuel : Nat) (level : Target) (s : Engine) : Except Fault Engine :=
  if level.getUPS s ≠ 0 then updateLoop level fuel s else .ok s

/-- Lines 134-139 of `run`: clear, draw, present, push the frame timestamp. -/
def drawFrame (level : Target) (s : Engine) : Engine :=
  { s with calls := s.calls ++ [.glClear, .draw level s.timer, .swapBuffers],
           core := { s.core with
             counter := { samples := s.core.counter.samples ++ [s.timer.current] } } }

/-- Lines 143-150 of `run`: the title update, once per elapsed second. -/
def endFrame (s : Engine) : Engine :=
  if s.timer.current > (s.seconds : ℚ) then
    let title := Title.fps s.core.counter.samples s.timer.current
    { s with core := { s.core with window := { s.core.window with title := title } },
             calls := s.calls ++ [.setTitle title],
             seconds := (s.seconds + 1) % secondsModulus }
  else s

/-- One iteration of the `while (running)` loop of `run` (lines 64-150); `now`
is the clock sample taken by `_timer.update()`. -/
def frame (fuel : Nat) (now : TimePoint) (s : Engine) : Except Fault Engine :=
  match selectActive s with
  | .error e => .error e
  | .ok (level, ctx, s1) =>
    match drainMessages level (reconcileSwapInterval ctx s1) with
    | .error e => .error e
    | .ok s2 =>
      if !s2.running then .ok s2
      else
        let s3 := { s2 with timer := timerUpdate now s2.timer }
        match level with
        | none => .error .nullLevel
        | some t =>
          match fixedUpdate fuel t s3 with
          | .error e => .error e
          | .ok s4 => .ok (endFrame (drawFrame t s4))

/-- What the platform supplies to one frame: the events queued since the last
drain, and the clock sample. -/
structure FrameInput where
  arrivals : List SDL_Event
  clock : TimePoint

/-- The `while (running)` loop over the given frame inputs. -/
def runLoop (fuel : Nat) : List FrameInput → Engine → Except Fault Engine
  | [], s => .ok s
  | i :: rest, s =>
    if s.running then
      match frame fuel i.clock { s with events := s.events ++ i.arrivals } with
      | .error e => .error e
      | .ok s1 => runLoop fuel rest s1
    else .ok s

/-- The call `_loadingThread->join()` (line 159): waits for the body of the thread to
finish. -/
def joinLoadingThread (s : Engine) : Except Fault Engine :=
  match s.loadingThread with
  | none => .error .nullThread
  | some w =>
    if w.joined then .error .terminate
    else
      let s1 := workerFinish s
      .ok { s1 with loadingThread := s1.loadingThread.map (fun t => { t with joined := true }),
                    calls := s1.calls ++ [.join] }

/-- The function `Engine::run` (engine.cpp 47-160) over the given frame inputs. -/
def run (fuel : Nat) (inputs : List FrameInput) (s : Engine) : Except Fault Engine :=
  let s0 : Engine :=
    { s with timer := timerReset, seconds := 0, running := true,
             logs := s.logs ++ [.loopStarted],
             core := { s.core with window := { s.core.window with visible := true } },
             calls := s.calls ++ [.setVisible true] }
  match runLoop fuel inputs s0 with
  | .error e => .error e
  | .ok s1 =>
    if s1.running then .error .exhausted
    else
      joinLoadingThread
        { s1 with logs := s1.logs ++ [.loopEscaped, .waitingForThreads],
                  core := { s1.core with window := { s1.core.window with visible := false } },
                  calls := s1.calls ++ [.setVisible false] }

/-! ## Example states -/

/-- The window as the engine's constructor creates it: 960 by 540, hidden. -/
def exampleWindow : Window :=
  { title := .text "Lys", size := { x := 960, y := 540 }, position := { x := 0, y := 0 },
    mouse := { x := 0, y := 0 }, visible := false, focus := true, swapInterval := 0,
    buttons := fun _ => false, keys := fun _ => false, event := none }

/-- A level type with an update rate of 60 per second. -/
def menu : Level := { name := "Menu", ups := 60 }

/-- A level type with an update rate of 0. -/
def still : Level := { name := "Still", ups := 0 }

/-- The engine at the point of its constructor where `changeLevel<Menu>` is
called: timer reset, no level yet, no loading thread, a loading screen with
update rate 0. -/
def bootEngine : Engine :=
  { core := { window := exampleWindow, counter := { samples := [] },
              context := { swapInterval := 0 }, loading := { swapInterval := 0 } },
    loadingScreen := { name := "LoadingScreen", ups := 0 },
    loading := false, swapInterval := 0, timer := timerReset,
    level := none, levelNew := false, levelStart := 0, levelUpdates := 0,
    loadingThread := none, message := .NOTHING, seconds := 0, running := true,
    events := [], mainCurrent := none, workerCurrent := none,
    calls := [], workerCalls := [], logs := [] }

/-- The engine while the loading thread for `menu` has not finished. -/
def loadingEngine : Engine :=
  { bootEngine with loading := true, mainCurrent := some .loading,
                    loadingThread := some { T := menu, pc := 0, joined := false } }

/-- The engine with `menu` loaded and already shown for a frame. -/
def menuEngine : Engine :=
  { bootEngine with level := some menu, mainCurrent := some .context,
                    loadingThread := some { T := menu, pc := 7, joined := false } }

/-- The engine right after the loading thread for `menu` has finished. -/
def freshMenuEngine : Engine :=
  { menuEngine with levelNew := true }

/-- The engine showing the loading screen, unfocused (desired swap interval 1,
not yet applied to the loading context), with a focus-lost and a focus-gained
event pending. -/
def focusEngine : Engine :=
  { loadingEngine with
      swapInterval := 1,
      events := [.WINDOWEVENT .FOCUS_LOST 0 0, .WINDOWEVENT .FOCUS_GAINED 0 0] }

/-- The engine showing the loading screen with a size change to 800 by 600
pending. -/
def resizedEngine : Engine :=
  { loadingEngine with events := [.WINDOWEVENT .SIZE_CHANGED 800 600] }

/-! ## Vocabulary of the statements -/

/-- The frame's `level` as chosen at lines 67-75 from the flag `_loading`. -/
def activeLevel (s : Engine) : Option Target :=
  if s.loading then some .loadingScreen else s.level.map Target.level

/-- The frame's `context` as chosen at lines 67-76 from the flag `_loading`. -/
def activeContext (s : Engine) : ContextId :=
  if s.loading then .loading else .context

/-- Whether a platform event is the close request of the window. -/
def SDL_Event.isClose : SDL_Event → Bool
  | .WINDOWEVENT .CLOSE _ _ => true
  | _ => false

/-- Whether a recorded call is a `draw` on a level object. -/
def Call.isDraw : Call → Bool
  | .draw _ _ => true
  | _ => false

/-- Whether a recorded call is an `update` on a level object. -/
def Call.isUpdate : Call → Bool
  | .update _ _ => true
  | _ => false

/-- Whether a recorded call is a `resize` on a level object. -/
def Call.isResize : Call → Bool
  | .resize _ _ => true
  | _ => false

/-- The level object a recorded call goes to, when it goes to one. -/
def Call.levelTarget : Call → Option Target
  | .resize t _ => some t
  | .update t _ => some t
  | .draw t _ => some t
  | _ => none

/-- The graphics context a recorded call goes to, when it goes to one. -/
def Call.contextTarget : Call → Option ContextId
  | .makeCurrent c => some c
  | .unbindCurrent c => some c
  | .setSwapInterval c _ => some c
  | _ => none

/-- What the message drain leaves alone: every member but the window, the
pending events, `message`, the desired swap interval and `running`; the calls it
adds are viewport settings and `resize` calls on the frame's level. -/
structure DrainKeeps (lvl : Option Target) (s r : Engine) : Prop where
  loadingScreen : r.loadingScreen = s.loadingScreen
  loading : r.loading = s.loading
  timer : r.timer = s.timer
  level : r.level = s.level
  levelNew : r.levelNew = s.levelNew
  levelStart : r.levelStart = s.levelStart
  levelUpdates : r.levelUpdates = s.levelUpdates
  loadingThread : r.loadingThread = s.loadingThread
  seconds : r.seconds = s.seconds
  context : r.core.context = s.core.context
  loadingContext : r.core.loading = s.core.loading
  counter : r.core.counter = s.core.counter
  calls : ∃ added, r.calls = s.calls ++ added ∧
    ∀ c ∈ added, (∃ w h, c = .glViewport 0 0 w h) ∨ (∃ t sz, lvl = some t ∧ c = .resize t sz)

/-- The calls of lines 67-83: the context binding, and the resize pass of a
frame that finds `_levelNew` set. -/
def selectCalls (s : Engine) (t : Target) : List Call :=
  if s.loading = false ∧ s.levelNew = true then
    [.makeCurrent (activeContext s),
     .glViewport 0 0 s.core.window.size.x s.core.window.size.y,
     .resize t s.core.window.size]
  else [.makeCurrent (activeContext s)]

/-- The call of lines 85-86, made when the context's interval is not the
desired one. -/
def reconcileCalls (s : Engine) : List Call :=
  if getSwapInterval (activeContext s) s ≠ s.swapInterval then
    [.setSwapInterval (activeContext s) s.swapInterval]
  else []

/-- The state in which the message drain of a frame starts, against the state
in which the frame started. -/
structure DrainStart (t : Target) (s r : Engine) : Prop where
  loadingScreen : r.loadingScreen = s.loadingScreen
  loading : r.loading = s.loading
  swapInterval : r.swapInterval = s.swapInterval
  timer : r.timer = s.timer
  level : r.level = s.level
  levelNew : r.levelNew = (s.loading && s.levelNew)
  levelStart : r.levelStart = s.levelStart
  levelUpdates : r.levelUpdates = s.levelUpdates
  loadingThread : r.loadingThread = s.loadingThread
  seconds : r.seconds = s.seconds
  running : r.running = s.running
  events : r.events = s.events
  window : r.core.window = s.core.window
  counter : r.core.counter = s.core.counter
  interval : getSwapInterval (activeContext s) r = s.swapInterval
  calls : r.calls = s.calls ++ (selectCalls s t ++ reconcileCalls s)

/-- The calls the `switch` of the drain makes for one event. -/
def eventCalls (t : Target) : SDL_Event → List Call
  | .WINDOWEVENT .SIZE_CHANGED w h => [.glViewport 0 0 w h, .resize t { x := w, y := h }]
  | _ => []

/-- The desired swap interval after the `switch` of the drain has seen one
event. -/
def eventInterval (n : Int) : SDL_Event → Int
  | .WINDOWEVENT .FOCUS_GAINED _ _ => 0
  | .WINDOWEVENT .FOCUS_LOST _ _ => 1
  | _ => n

/-- The calls the drain makes on a queue of pending events: those of the events
in front of the first close request. -/
def drainCalls (t : Target) : List SDL_Event → List Call
  | [] => []
  | e :: q => if e.isClose then [] else eventCalls t e ++ drainCalls t q

/-- The desired swap interval the drain leaves on a queue of pending events. -/
def drainInterval (n : Int) : List SDL_Event → Int
  | [] => n
  | e :: q => if e.isClose then n else drainInterval (eventInterval n e) q

/-- The events the drain leaves in the queue: those behind the first close
request. -/
def leftPending : List SDL_Event → List SDL_Event
  | [] => []
  | e :: q => if e.isClose then q else leftPending q

/-- The numeric side condition under which the update loop of a frame sampled
at `now` returns within `fuel` turns: `_level` is not null, the product compared
in the loop is within the range of the counter, and its ceiling is at most
`fuel`. -/
def updatesFit (now : TimePoint) (s : Engine) (fuel : Nat) : Prop :=
  ∃ l, s.level = some l ∧
    (now - s.levelStart) * (l.ups : ℚ) ≤ ((levelUpdatesModulus - 1 : Nat) : ℚ) ∧
    ⌈(now - s.levelStart) * (l.ups : ℚ)⌉₊ ≤ fuel

/-- What a frame that returns has done, against the state it started in (with
`running` set, as at the head of the loop). -/
structure FrameSummary (t : Target) (now : TimePoint) (s r : Engine) : Prop where
  loadingScreen : r.loadingScreen = s.loadingScreen
  loading : r.loading = s.loading
  level : r.level = s.level
  levelStart : r.levelStart = s.levelStart
  loadingThread : r.loadingThread = s.loadingThread
  levelNew : r.levelNew = (s.loading && s.levelNew)
  interval : getSwapInterval (activeContext s) r = s.swapInterval
  swapInterval : r.swapInterval = drainInterval s.swapInterval s.events
  events : r.events = leftPending s.events
  running : r.running = !(s.events.any SDL_Event.isClose)
  calls : ∃ rest,
    r.calls = s.calls ++ (selectCalls s t ++ reconcileCalls s ++ drainCalls t s.events ++ rest) ∧
    ((r.running = false ∧ rest = [] ∧ r.levelUpdates = s.levelUpdates) ∨
     (r.running = true ∧ ∃ k titles,
        rest = List.replicate k (.update t (timerUpdate now s.timer)) ++
          [.glClear, .draw t (timerUpdate now s.timer), .swapBuffers] ++ titles ∧
        (∀ c ∈ titles, ∃ ti, c = .setTitle ti) ∧
        (t.getUPS s = 0 → k = 0 ∧ r.levelUpdates = s.levelUpdates)))

/-! ## The message drain -/

theorem drainMessages_unfold (level : Option Target) (s : Engine) :
    drainMessages level s =
      if (s.core.window.pollMessages s.events).result = true then
        match handleMessage level (pollWindow s) with
        | .error e => .error e
        | .ok s2 => if !s2.running then .ok s2 else drainMessages level s2
      else .ok (pollWindow s) := by
  rw [drainMessages]
  split
  · split <;> rename_i h <;> simp [h]
  · rfl

theorem DrainKeeps.refl (level : Option Target) (s : Engine) : DrainKeeps level s s :=
  ⟨rfl, rfl, rfl, rfl, rfl, rfl, rfl, rfl, rfl, rfl, rfl, rfl, ⟨[], by simp, by simp⟩⟩

theorem DrainKeeps.trans {level : Option Target} {a b c : Engine}
    (h1 : DrainKeeps level a b) (h2 : DrainKeeps level b c) : DrainKeeps level a c := by
  obtain ⟨x, hx, hx2⟩ := h1.calls
  obtain ⟨y, hy, hy2⟩ := h2.calls
  refine ⟨h2.loadingScreen.trans h1.loadingScreen, h2.loading.trans h1.loading,
    h2.timer.trans h1.timer, h2.level.trans h1.level, h2.levelNew.trans h1.levelNew,
    h2.levelStart.trans h1.levelStart, h2.levelUpdates.trans h1.levelUpdates,
    h2.loadingThread.trans h1.loadingThread, h2.seconds.trans h1.seconds,
    h2.context.trans h1.context, h2.loadingContext.trans h1.loadingContext,
    h2.counter.trans h1.counter, ⟨x ++ y, by rw [hy, hx, List.append_assoc], ?_⟩⟩
  intro c hc
  rcases List.mem_append.mp hc with h | h
  · exact hx2 c h
  · exact hy2 c h

theorem pollWindow_keeps (level : Option Target) (s : Engine) : DrainKeeps level s (pollWindow s) :=
  ⟨rfl, rfl, rfl, rfl, rfl, rfl, rfl, rfl, rfl, rfl, rfl, rfl, ⟨[], by simp [pollWindow], by simp⟩⟩

theorem handleMessage_keeps {level : Option Target} {s r : Engine}
    (h : handleMessage level s = .ok r) : DrainKeeps level s r := by
  unfold handleMessage at h
  split at h
  · cases h; exact ⟨rfl, rfl, rfl, rfl, rfl, rfl, rfl, rfl, rfl, rfl, rfl, rfl, ⟨[], by simp, by simp⟩⟩
  · cases h; exact ⟨rfl, rfl, rfl, rfl, rfl, rfl, rfl, rfl, rfl, rfl, rfl, rfl, ⟨[], by simp, by simp⟩⟩
  · cases h; exact ⟨rfl, rfl, rfl, rfl, rfl, rfl, rfl, rfl, rfl, rfl, rfl, rfl, ⟨[], by simp, by simp⟩⟩
  · split at h
    · cases h
    · cases h
      refine ⟨rfl, rfl, rfl, rfl, rfl, rfl, rfl, rfl, rfl, rfl, rfl, rfl, ⟨_, rfl, ?_⟩⟩
      intro c hc
      simp at hc
      rcases hc with hc | hc
      · exact Or.inl ⟨_, _, hc⟩
      · exact Or.inr ⟨_, _, rfl, hc⟩
  · cases h; exact DrainKeeps.refl _ _

theorem drainMessages_keeps (level : Option Target) (s : Engine) :
    ∀ r, drainMessages level s = .ok r → DrainKeeps level s r := by
  induction s using drainMessages.induct level with
  | case1 x hp e hm =>
    intro r h
    rw [drainMessages_unfold, if_pos hp, hm] at h
    cases h
  | case2 x hp s2 hm hrun =>
    intro r h
    rw [drainMessages_unfold, if_pos hp, hm] at h
    simp only [hrun, if_true] at h
    cases h
    exact (pollWindow_keeps level x).trans (handleMessage_keeps hm)
  | case3 x hp s2 hm hrun ih =>
    intro r h
    rw [drainMessages_unfold, if_pos hp, hm] at h
    simp only [hrun, if_false] at h
    exact ((pollWindow_keeps level x).trans (handleMessage_keeps hm)).trans (ih r h)
  | case4 x hp =>
    intro r h
    rw [drainMessages_unfold, if_neg hp] at h
    cases h
    exact pollWindow_keeps level x

theorem drainMessages_returns (t : Target) (s : Engine) :
    ∃ r, drainMessages (some t) s = .ok r := by
  induction s using drainMessages.induct (some t) with
  | case1 x hp e hm =>
    exfalso
    unfold handleMessage at hm
    split at hm <;> cases hm
  | case2 x hp s2 hm hrun =>
    refine ⟨s2, ?_⟩
    rw [drainMessages_unfold, if_pos hp, hm]
    simp only [hrun, if_true]
  | case3 x hp s2 hm hrun ih =>
    obtain ⟨r, hr⟩ := ih
    refine ⟨r, ?_⟩
    rw [drainMessages_unfold, if_pos hp, hm]
    simp only [hrun, if_false]
    exact hr
  | case4 x hp =>
    exact ⟨pollWindow x, by rw [drainMessages_unfold, if_neg hp]⟩

theorem drainMessages_nil (lvl : Option Target) (s : Engine) (he : s.events = []) :
    drainMessages lvl s = .ok (pollWindow s) := by
  rw [drainMessages_unfold]
  simp [he, Window.pollMessages]

theorem drainMessages_close (lvl : Option Target) (s : Engine) (a b : Int)
    (q : List SDL_Event) (he : s.events = .WINDOWEVENT .CLOSE a b :: q) :
    drainMessages lvl s = .ok { pollWindow s with running := false } ∧
      (pollWindow s).events = q := by
  rw [drainMessages_unfold]
  simp [he, Window.pollMessages, pollWindow, handleMessage]

theorem drainMessages_focusGained (lvl : Option Target) (s : Engine) (a b : Int)
    (q : List SDL_Event) (he : s.events = .WINDOWEVENT .FOCUS_GAINED a b :: q)
    (hrun : s.running = true) :
    drainMessages lvl s = drainMessages lvl { pollWindow s with swapInterval := 0 } ∧
      (pollWindow s).events = q := by
  rw [drainMessages_unfold]
  simp [he, Window.pollMessages, pollWindow, handleMessage, hrun]

theorem drainMessages_focusLost (lvl : Option Target) (s : Engine) (a b : Int)
    (q : List SDL_Event) (he : s.events = .WINDOWEVENT .FOCUS_LOST a b :: q)
    (hrun : s.running = true) :
    drainMessages lvl s = drainMessages lvl { pollWindow s with swapInterval := 1 } ∧
      (pollWindow s).events = q := by
  rw [drainMessages_unfold]
  simp [he, Window.pollMessages, pollWindow, handleMessage, hrun]

/-- One turn of the drain on an event that is not the close request. -/
theorem drainMessages_step (t : Target) (s : Engine) (e : SDL_Event) (q : List SDL_Event)
    (he : s.events = e :: q) (hrun : s.running = true) (hc : e.isClose = false) :
    ∃ s1, drainMessages (some t) s = drainMessages (some t) s1 ∧ s1.events = q ∧
      s1.running = true ∧ s1.calls = s.calls ++ eventCalls t e ∧
      s1.swapInterval = eventInterval s.swapInterval e ∧ DrainKeeps (some t) s s1 := by
  have hk : ∀ s1, handleMessage (some t) (pollWindow s) = .ok s1 →
      DrainKeeps (some t) s s1 := fun s1 h =>
    (pollWindow_keeps (some t) s).trans (handleMessage_keeps h)
  rw [drainMessages_unfold]
  cases e with
  | WINDOWEVENT ev a b =>
    cases ev with
    | CLOSE => simp [SDL_Event.isClose] at hc
    | FOCUS_GAINED =>
      refine ⟨{ pollWindow s with swapInterval := 0 }, ?_, ?_, ?_, ?_, ?_, hk _ ?_⟩ <;>
        simp [he, Window.pollMessages, pollWindow, handleMessage, hrun, eventCalls, eventInterval]
    | FOCUS_LOST =>
      refine ⟨{ pollWindow s with swapInterval := 1 }, ?_, ?_, ?_, ?_, ?_, hk _ ?_⟩ <;>
        simp [he, Window.pollMessages, pollWindow, handleMessage, hrun, eventCalls, eventInterval]
    | MOVED =>
      refine ⟨pollWindow s, ?_, ?_, ?_, ?_, ?_, hk _ ?_⟩ <;>
        simp [he, Window.pollMessages, pollWindow, handleMessage, hrun, eventCalls, eventInterval]
    | SIZE_CHANGED =>
      refine ⟨resize t (pollWindow s), ?_, ?_, ?_, ?_, ?_, hk _ ?_⟩ <;>
        simp [he, Window.pollMessages, pollWindow, handleMessage, hrun, resize, eventCalls,
          eventInterval]
    | OTHER code =>
      refine ⟨pollWindow s, ?_, ?_, ?_, ?_, ?_, hk _ ?_⟩ <;>
        simp [he, Window.pollMessages, pollWindow, handleMessage, hrun, eventCalls, eventInterval]
  | MOUSEMOTION x y =>
    refine ⟨pollWindow s, ?_, ?_, ?_, ?_, ?_, hk _ ?_⟩ <;>
      simp [he, Window.pollMessages, pollWindow, handleMessage, hrun, eventCalls, eventInterval]
  | MOUSEBUTTONDOWN b =>
    refine ⟨pollWindow s, ?_, ?_, ?_, ?_, ?_, hk _ ?_⟩ <;>
      simp [he, Window.pollMessages, pollWindow, handleMessage, hrun, eventCalls, eventInterval]
  | MOUSEBUTTONUP b =>
    refine ⟨pollWindow s, ?_, ?_, ?_, ?_, ?_, hk _ ?_⟩ <;>
      simp [he, Window.pollMessages, pollWindow, handleMessage, hrun, eventCalls, eventInterval]
  | KEYDOWN k =>
    refine ⟨pollWindow s, ?_, ?_, ?_, ?_, ?_, hk _ ?_⟩ <;>
      simp [he, Window.pollMessages, pollWindow, handleMessage, hrun, eventCalls, eventInterval]
  | KEYUP k =>
    refine ⟨pollWindow s, ?_, ?_, ?_, ?_, ?_, hk _ ?_⟩ <;>
      simp [he, Window.pollMessages, pollWindow, handleMessage, hrun, eventCalls, eventInterval]
  | OTHER ty =>
    refine ⟨pollWindow s, ?_, ?_, ?_, ?_, ?_, hk _ ?_⟩ <;>
      simp [he, Window.pollMessages, pollWindow, handleMessage, hrun, eventCalls, eventInterval]

/-- The drain on a queue of pending events, from a state with `running` set: it
returns, having made the calls of the events in front of the first close
request and left the events behind it in the queue. -/
theorem drainMessages_spec (t : Target) (q : List SDL_Event) :
    ∀ s : Engine, s.events = q → s.running = true →
      ∃ r, drainMessages (some t) s = .ok r ∧ r.calls = s.calls ++ drainCalls t q ∧
        r.swapInterval = drainInterval s.swapInterval q ∧
        r.events = leftPending q ∧ r.running = !(q.any SDL_Event.isClose) := by
  induction q with
  | nil =>
    intro s he hrun
    refine ⟨pollWindow s, drainMessages_nil _ s he, ?_, ?_, ?_, ?_⟩ <;>
      simp [pollWindow, drainCalls, drainInterval, leftPending, he, Window.pollMessages, hrun]
  | cons e q ih =>
    intro s he hrun
    by_cases hc : e.isClose = true
    · cases e with
      | WINDOWEVENT ev a b =>
        cases ev with
        | CLOSE =>
          obtain ⟨h1, h2⟩ := drainMessages_close (some t) s a b q he
          refine ⟨_, h1, ?_, ?_, ?_, ?_⟩ <;>
            simp [drainCalls, drainInterval, leftPending, SDL_Event.isClose, h2] <;>
            simp [pollWindow]
        | _ => simp [SDL_Event.isClose] at hc
      | _ => simp [SDL_Event.isClose] at hc
    · have hc2 : e.isClose = false := by simpa using hc
      obtain ⟨s1, h1, he1, hrun1, hcalls, hint, _⟩ := drainMessages_step t s e q he hrun hc2
      obtain ⟨r, hr, hrc, hri, hre, hrr⟩ := ih s1 he1 hrun1
      refine ⟨r, h1.trans hr, ?_, ?_, ?_, ?_⟩
      · rw [hrc, hcalls]; simp [drainCalls, hc2]
      · rw [hri, hint]; simp [drainInterval, hc2]
      · rw [hre]; simp [leftPending, hc2]
      · rw [hrr]; simp [hc2]

/-! ## The update loop -/

/-- On success the update loop has only counted and recorded `update` calls. -/
theorem updateLoop_keeps (t : Target) :
    ∀ (fuel : Nat) (s r : Engine), updateLoop t fuel s = .ok r →
      ∃ k, r = { s with levelUpdates := r.levelUpdates,
                        calls := s.calls ++ List.replicate k (.update t s.timer) } := by
  intro fuel
  induction fuel with
  | zero =>
    intro s r h
    unfold updateLoop at h
    split at h
    · cases h
    · cases h
    · cases h; exact ⟨0, by simp⟩
  | succ n ih =>
    intro s r h
    unfold updateLoop at h
    split at h
    · cases h
    · obtain ⟨k, hk⟩ := ih _ r h
      refine ⟨k + 1, ?_⟩
      rw [hk]
      simp [List.replicate_succ]
    · cases h; exact ⟨0, by simp⟩

theorem updateDue_true {s : Engine} {l : Level} (hl : s.level = some l)
    (hx : (s.timer.current - s.levelStart) * (l.ups : ℚ) > (s.levelUpdates : ℚ)) :
    updateDue s = .ok true := by
  unfold updateDue
  rw [hl]
  simp only [decide_eq_true hx]

theorem updateDue_false {s : Engine} {l : Level} (hl : s.level = some l)
    (hx : ¬ (s.timer.current - s.levelStart) * (l.ups : ℚ) > (s.levelUpdates : ℚ)) :
    updateDue s = .ok false := by
  unfold updateDue
  rw [hl]
  simp only [decide_eq_false hx]

/-- With the product within the counter's range and enough fuel, the update loop
returns with the counter at the larger of its old value and the ceiling of the
product. -/
theorem updateLoop_spec (t : Target) (l : Level) :
    ∀ (fuel : Nat) (s : Engine), s.level = some l →
      (s.timer.current - s.levelStart) * (l.ups : ℚ) ≤ ((levelUpdatesModulus - 1 : Nat) : ℚ) →
      ⌈(s.timer.current - s.levelStart) * (l.ups : ℚ)⌉₊ - s.levelUpdates ≤ fuel →
      updateLoop t fuel s = .ok { s with
        levelUpdates := max s.levelUpdates ⌈(s.timer.current - s.levelStart) * (l.ups : ℚ)⌉₊,
        calls := s.calls ++ List.replicate
          (⌈(s.timer.current - s.levelStart) * (l.ups : ℚ)⌉₊ - s.levelUpdates)
          (.update t s.timer) } := by
  intro fuel
  induction fuel with
  | zero =>
    intro s hl hM hf
    have hle : ⌈(s.timer.current - s.levelStart) * (l.ups : ℚ)⌉₊ ≤ s.levelUpdates := by omega
    have hx : (s.timer.current - s.levelStart) * (l.ups : ℚ) ≤ (s.levelUpdates : ℚ) :=
      Nat.ceil_le.mp hle
    unfold updateLoop
    rw [updateDue_false hl (not_lt.mpr hx)]
    simp [Nat.sub_eq_zero_of_le hle, max_eq_left hle]
  | succ n ih =>
    intro s hl hM hf
    by_cases hx : (s.timer.current - s.levelStart) * (l.ups : ℚ) > (s.levelUpdates : ℚ)
    · have hlt : s.levelUpdates < ⌈(s.timer.current - s.levelStart) * (l.ups : ℚ)⌉₊ :=
        Nat.lt_ceil.mpr hx
      have hcM : ⌈(s.timer.current - s.levelStart) * (l.ups : ℚ)⌉₊ ≤ levelUpdatesModulus - 1 :=
        Nat.ceil_le.mpr hM
      have hpos : 0 < levelUpdatesModulus := by unfold levelUpdatesModulus; positivity
      have hmod : (s.levelUpdates + 1) % levelUpdatesModulus = s.levelUpdates + 1 :=
        Nat.mod_eq_of_lt (by omega)
      unfold updateLoop
      rw [updateDue_true hl hx]
      simp only [hmod]
      have key := ih { s with calls := s.calls ++ [.update t s.timer],
                              levelUpdates := s.levelUpdates + 1 } hl hM (by simp only; omega)
      refine key.trans ?_
      have h1 : max (s.levelUpdates + 1) ⌈(s.timer.current - s.levelStart) * (l.ups : ℚ)⌉₊
          = max s.levelUpdates ⌈(s.timer.current - s.levelStart) * (l.ups : ℚ)⌉₊ := by
        rw [max_eq_right (by omega), max_eq_right (by omega)]
      have h2 : ⌈(s.timer.current - s.levelStart) * (l.ups : ℚ)⌉₊ - s.levelUpdates
          = (⌈(s.timer.current - s.levelStart) * (l.ups : ℚ)⌉₊ - (s.levelUpdates + 1)) + 1 := by
        omega
      simp only
      rw [h1, h2, List.replicate_succ]
      simp
    · have hle : ⌈(s.timer.current - s.levelStart) * (l.ups : ℚ)⌉₊ ≤ s.levelUpdates :=
        Nat.ceil_le.mpr (not_lt.mp hx)
      unfold updateLoop
      rw [updateDue_false hl hx]
      simp [Nat.sub_eq_zero_of_le hle, max_eq_left hle]

/-! ## The frame -/

theorem reconcile_start {t : Target} {s s1 : Engine} {ctx : ContextId}
    (hctx : ctx = activeContext s)
    (h : s1.loadingScreen = s.loadingScreen ∧ s1.loading = s.loading ∧
      s1.swapInterval = s.swapInterval ∧ s1.timer = s.timer ∧ s1.level = s.level ∧
      s1.levelNew = (s.loading && s.levelNew) ∧ s1.levelStart = s.levelStart ∧
      s1.levelUpdates = s.levelUpdates ∧ s1.loadingThread = s.loadingThread ∧
      s1.seconds = s.seconds ∧ s1.running = s.running ∧ s1.events = s.events ∧
      s1.core = s.core ∧ s1.calls = s.calls ++ selectCalls s t) :
    DrainStart t s (reconcileSwapInterval ctx s1) := by
  obtain ⟨h1, h2, h3, h4, h5, h6, h7, h8, h9, h10, h11, h12, h13, h14⟩ := h
  subst hctx
  have hg : getSwapInterval (activeContext s) s1 = getSwapInterval (activeContext s) s := by
    unfold getSwapInterval; rw [h13]
  unfold reconcileSwapInterval
  by_cases hne : getSwapInterval (activeContext s) s1 ≠ s1.swapInterval
  · rw [if_pos hne]
    have hne2 : getSwapInterval (activeContext s) s ≠ s.swapInterval := by
      rw [← hg, ← h3]; exact hne
    refine ⟨?_, ?_, ?_, ?_, ?_, ?_, ?_, ?_, ?_, ?_, ?_, ?_, ?_, ?_, ?_, ?_⟩ <;>
      cases hc : activeContext s <;>
      simp [setSwapInterval, getSwapInterval, reconcileCalls, hc, *] at hne2 ⊢ <;>
      rw [if_neg hne2]
  · rw [if_neg hne]
    have heq : getSwapInterval (activeContext s) s = s.swapInterval := by
      rw [← hg, ← h3]; exact not_not.mp hne
    refine ⟨h1, h2, h3, h4, h5, h6, h7, h8, h9, h10, h11, h12, by rw [h13], by rw [h13], ?_, ?_⟩
    · rw [hg, heq]
    · rw [h14]; simp [reconcileCalls, heq]

theorem selectActive_start {t : Target} {s : Engine} (hact : activeLevel s = some t) :
    ∃ s1, selectActive s = .ok (some t, activeContext s, s1) ∧
      DrainStart t s (reconcileSwapInterval (activeContext s) s1) := by
  unfold activeLevel at hact
  by_cases hl : s.loading = true
  · rw [if_pos hl] at hact
    cases hact
    refine ⟨makeCurrent .loading s, ?_, reconcile_start (by simp [activeContext, hl]) ?_⟩
    · simp [selectActive, hl, activeContext]
    · simp [makeCurrent, selectCalls, hl, activeContext]
  · rw [if_neg hl] at hact
    have hl2 : s.loading = false := by simpa using hl
    cases hlev : s.level with
    | none => rw [hlev] at hact; cases hact
    | some l =>
      rw [hlev] at hact
      cases hact
      by_cases hn : s.levelNew = true
      · refine ⟨{ resize (.level l) (makeCurrent .context s) with levelNew := false }, ?_,
          reconcile_start (by simp [activeContext, hl2]) ?_⟩
        · simp [selectActive, hl2, activeContext, makeCurrent, hn, hlev]
        · simp [makeCurrent, selectCalls, hl2, activeContext, resize, hn, hlev]
      · have hn2 : s.levelNew = false := by simpa using hn
        refine ⟨makeCurrent .context s, ?_, reconcile_start (by simp [activeContext, hl2]) ?_⟩
        · simp [selectActive, hl2, activeContext, makeCurrent, hn2, hlev]
        · simp [makeCurrent, selectCalls, hl2, activeContext, hn2, hlev]

/-- A frame whose level pointer is not null: the part up to the end of the
message drain always returns, and the rest of the frame runs on its result. -/
theorem frame_head {s : Engine} {t : Target} (hact : activeLevel s = some t) :
    ∃ s1 s2, DrainStart t s s1 ∧ drainMessages (some t) s1 = .ok s2 ∧
      ∀ (fuel : Nat) (now : TimePoint), frame fuel now s =
        if !s2.running then .ok s2
        else
          match fixedUpdate fuel t { s2 with timer := timerUpdate now s2.timer } with
          | .error e => .error e
          | .ok s4 => .ok (endFrame (drawFrame t s4)) := by
  obtain ⟨s1, hsel, hstart⟩ := selectActive_start hact
  obtain ⟨s2, hdrain⟩ := drainMessages_returns t (reconcileSwapInterval (activeContext s) s1)
  refine ⟨_, s2, hstart, hdrain, ?_⟩
  intro fuel now
  unfold frame
  rw [hsel]
  simp only [hdrain]

/-- On success the fixed-update step has only counted and recorded `update`
calls. -/
theorem fixedUpdate_keeps {fuel : Nat} {t : Target} {s r : Engine}
    (h : fixedUpdate fuel t s = .ok r) :
    ∃ k, r = { s with levelUpdates := r.levelUpdates,
                      calls := s.calls ++ List.replicate k (.update t s.timer) } := by
  unfold fixedUpdate at h
  split at h
  · exact updateLoop_keeps t fuel s r h
  · cases h; exact ⟨0, by simp⟩

theorem getUPS_congr {t : Target} {a b : Engine} (h : a.loadingScreen = b.loadingScreen) :
    t.getUPS a = t.getUPS b := by
  cases t <;> simp [Target.getUPS, h]

theorem getSwapInterval_congr {c : ContextId} {a b : Engine}
    (h1 : a.core.context = b.core.context) (h2 : a.core.loading = b.core.loading) :
    getSwapInterval c a = getSwapInterval c b := by
  cases c <;> simp [getSwapInterval, h1, h2]

/-- The part of a frame after the fixed-update step: clear, draw, present, and
the title update. -/
theorem present_calls (t : Target) (s : Engine) :
    ∃ titles, (endFrame (drawFrame t s)).calls =
        s.calls ++ ([.glClear, .draw t s.timer, .swapBuffers] ++ titles) ∧
      (∀ c ∈ titles, ∃ ti, c = .setTitle ti) ∧
      (endFrame (drawFrame t s)).levelUpdates = s.levelUpdates ∧
      (endFrame (drawFrame t s)).levelNew = s.levelNew ∧
      (endFrame (drawFrame t s)).running = s.running ∧
      (endFrame (drawFrame t s)).loadingScreen = s.loadingScreen ∧
      (endFrame (drawFrame t s)).loading = s.loading ∧
      (endFrame (drawFrame t s)).level = s.level ∧
      (endFrame (drawFrame t s)).levelStart = s.levelStart ∧
      (endFrame (drawFrame t s)).loadingThread = s.loadingThread ∧
      (endFrame (drawFrame t s)).events = s.events ∧
      (endFrame (drawFrame t s)).swapInterval = s.swapInterval ∧
      (endFrame (drawFrame t s)).core.context = s.core.context ∧
      (endFrame (drawFrame t s)).core.loading = s.core.loading := by
  unfold endFrame
  by_cases h : (drawFrame t s).timer.current > ((drawFrame t s).seconds : ℚ)
  · rw [if_pos h]
    exact ⟨[.setTitle (.fps (drawFrame t s).core.counter.samples (drawFrame t s).timer.current)],
      by simp [drawFrame], by simp, rfl, rfl, rfl, rfl, rfl, rfl, rfl, rfl, rfl, rfl, rfl, rfl⟩
  · rw [if_neg h]
    exact ⟨[], by simp [drawFrame], by simp, rfl, rfl, rfl, rfl, rfl, rfl, rfl, rfl, rfl, rfl,
      rfl, rfl⟩

theorem frame_summary {fuel : Nat} {now : TimePoint} {s r : Engine} {t : Target}
    (hact : activeLevel s = some t) (hrun0 : s.running = true)
    (h : frame fuel now s = .ok r) : FrameSummary t now s r := by
  obtain ⟨s1, s2, hstart, hdrain, hframe⟩ := frame_head hact
  have hk := drainMessages_keeps (some t) s1 s2 hdrain
  obtain ⟨r2, hr2, hdc, hdi, hde, hdr⟩ :=
    drainMessages_spec t s1.events s1 rfl (hstart.running.trans hrun0)
  rw [hdrain] at hr2
  cases hr2
  rw [hstart.events] at hdc hdi hde hdr
  rw [hstart.swapInterval] at hdi
  have hint : getSwapInterval (activeContext s) s2 = s.swapInterval := by
    rw [getSwapInterval_congr hk.context hk.loadingContext]; exact hstart.interval
  rw [hframe fuel now] at h
  by_cases hrun : s2.running = true
  · rw [if_neg (by simp [hrun])] at h
    split at h
    · cases h
    · rename_i s4 hfix
      cases h
      obtain ⟨k, hk4⟩ := fixedUpdate_keeps hfix
      obtain ⟨titles, hc, ht, h1, h2, h3, h4, h5, h6, h7, h8, h9, h10, h11, h12⟩ :=
        present_calls t s4
      have hl4 : s4.loadingScreen = s2.loadingScreen := by rw [hk4]
      have hrun4 : (endFrame (drawFrame t s4)).running = s2.running := by rw [h3, hk4]
      refine ⟨?_, ?_, ?_, ?_, ?_, ?_, ?_, ?_, ?_, ?_, ?_⟩
      · rw [h4, hl4, hk.loadingScreen, hstart.loadingScreen]
      · rw [h5, hk4]; exact hk.loading.trans hstart.loading
      · rw [h6, hk4]; exact hk.level.trans hstart.level
      · rw [h7, hk4]; exact hk.levelStart.trans hstart.levelStart
      · rw [h8, hk4]; exact hk.loadingThread.trans hstart.loadingThread
      · rw [h2, hk4]; exact hk.levelNew.trans hstart.levelNew
      · rw [getSwapInterval_congr h11 h12, hk4]; exact hint
      · rw [h10, hk4]; exact hdi
      · rw [h9, hk4]; exact hde
      · rw [hrun4]; exact hdr
      · refine ⟨_, ?_, Or.inr ⟨hrun4.trans hrun, k, titles, rfl, ht, ?_⟩⟩
        · rw [hc, hk4]
          simp only [hdc, hstart.calls, hk.timer, hstart.timer, List.append_assoc]
        · intro hz
          have hz2 : t.getUPS { s2 with timer := timerUpdate now s2.timer } = 0 := by
            rw [← hz]
            exact getUPS_congr (hk.loadingScreen.trans hstart.loadingScreen)
          unfold fixedUpdate at hfix
          rw [if_neg (not_not.mpr hz2)] at hfix
          cases hfix
          have hlen := congrArg (fun e => e.calls.length) hk4
          simp at hlen
          exact ⟨hlen, by rw [h1]; exact hk.levelUpdates.trans hstart.levelUpdates⟩
  · have hrun2 : s2.running = false := by simpa using hrun
    rw [if_pos (by simp [hrun2])] at h
    cases h
    refine ⟨hk.loadingScreen.trans hstart.loadingScreen, hk.loading.trans hstart.loading,
      hk.level.trans hstart.level, hk.levelStart.trans hstart.levelStart,
      hk.loadingThread.trans hstart.loadingThread, hk.levelNew.trans hstart.levelNew, hint,
      hdi, hde, hdr,
      ⟨[], ?_, Or.inl ⟨hrun2, rfl, hk.levelUpdates.trans hstart.levelUpdates⟩⟩⟩
    rw [hdc, hstart.calls]; simp

/-- A frame whose level pointer is not null returns once the fuel covers the
turns of the update loop, provided the product compared in the loop is within
the range of the counter. -/
theorem frame_returns (now : TimePoint) {s : Engine} {t : Target}
    (hact : activeLevel s = some t)
    (fuel : Nat) (hfit : t.getUPS s ≠ 0 → updatesFit now s fuel) :
    ∃ r, frame fuel now s = .ok r := by
  obtain ⟨s1, s2, hstart, hdrain, hframe⟩ := frame_head hact
  have hk := drainMessages_keeps (some t) s1 s2 hdrain
  by_cases hrun : s2.running = true
  · have hnot : ¬ ((!s2.running) = true) := by simp [hrun]
    by_cases hz : t.getUPS s = 0
    · have hz2 : t.getUPS { s2 with timer := timerUpdate now s2.timer } = 0 := by
        rw [← hz]
        exact getUPS_congr (hk.loadingScreen.trans hstart.loadingScreen)
      have hfix : fixedUpdate fuel t { s2 with timer := timerUpdate now s2.timer } =
          .ok { s2 with timer := timerUpdate now s2.timer } := by
        unfold fixedUpdate
        rw [if_neg (not_not.mpr hz2)]
      rw [hframe fuel now, if_neg hnot, hfix]
      exact ⟨_, rfl⟩
    · obtain ⟨l, hl, hM, hf⟩ := hfit hz
      have hz2 : t.getUPS { s2 with timer := timerUpdate now s2.timer } ≠ 0 := by
        intro h0
        apply hz
        rw [← h0]
        exact (getUPS_congr (hk.loadingScreen.trans hstart.loadingScreen)).symm
      have hspec := updateLoop_spec t l fuel { s2 with timer := timerUpdate now s2.timer }
        (hk.level.trans (hstart.level.trans hl))
        (by simpa [timerUpdate, hk.levelStart, hstart.levelStart] using hM)
        (by
          simp only [timerUpdate, hk.levelStart, hstart.levelStart]
          exact le_trans (Nat.sub_le _ _) hf)
      have hfix : ∃ s4, fixedUpdate fuel t { s2 with timer := timerUpdate now s2.timer } =
          .ok s4 := ⟨_, by unfold fixedUpdate; rw [if_pos hz2]; exact hspec⟩
      obtain ⟨s4, hfix⟩ := hfix
      rw [hframe fuel now, if_neg hnot, hfix]
      exact ⟨_, rfl⟩
  · rw [hframe fuel now, if_pos (by simpa using hrun)]
    exact ⟨_, rfl⟩

/-! ## Consequences for the calls of a frame -/

theorem leftPending_close (pre post : List SDL_Event) (a b : Int)
    (hpre : ∀ e ∈ pre, e.isClose = false) :
    leftPending (pre ++ .WINDOWEVENT .CLOSE a b :: post) = post := by
  induction pre with
  | nil => simp [leftPending, SDL_Event.isClose]
  | cons e pre ih =>
    have he : e.isClose = false := hpre e (by simp)
    have ih2 := ih (fun x hx => hpre x (by simp [hx]))
    simp [leftPending, he, ih2]

theorem drainCalls_append (t : Target) (pre q : List SDL_Event)
    (hpre : ∀ e ∈ pre, e.isClose = false) :
    drainCalls t (pre ++ q) = drainCalls t pre ++ drainCalls t q := by
  induction pre with
  | nil => simp [drainCalls]
  | cons e pre ih =>
    have he : e.isClose = false := hpre e (by simp)
    have ih2 := ih (fun x hx => hpre x (by simp [hx]))
    simp [drainCalls, he, ih2]

theorem drainInterval_append (n : Int) (pre q : List SDL_Event)
    (hpre : ∀ e ∈ pre, e.isClose = false) :
    drainInterval n (pre ++ q) = drainInterval (drainInterval n pre) q := by
  induction pre generalizing n with
  | nil => simp [drainInterval]
  | cons e pre ih =>
    have he : e.isClose = false := hpre e (by simp)
    have ih2 := ih (eventInterval n e) (fun x hx => hpre x (by simp [hx]))
    simp [drainInterval, he, ih2]

theorem eventCalls_kinds (t : Target) (e : SDL_Event) :
    ∀ c ∈ eventCalls t e, (∃ w h, c = .glViewport 0 0 w h) ∨ (∃ sz, c = .resize t sz) := by
  intro c hc
  unfold eventCalls at hc
  split at hc
  · simp at hc
    rcases hc with hc | hc
    · exact Or.inl ⟨_, _, hc⟩
    · exact Or.inr ⟨_, hc⟩
  · simp at hc

theorem drainCalls_kinds (t : Target) (q : List SDL_Event) :
    ∀ c ∈ drainCalls t q, (∃ w h, c = .glViewport 0 0 w h) ∨ (∃ sz, c = .resize t sz) := by
  induction q with
  | nil => intro c hc; simp [drainCalls] at hc
  | cons e q ih =>
    intro c hc
    unfold drainCalls at hc
    split at hc
    · simp at hc
    · rcases List.mem_append.mp hc with h | h
      · exact eventCalls_kinds t e c h
      · exact ih c h

theorem selectCalls_kinds (s : Engine) (t : Target) :
    ∀ c ∈ selectCalls s t, c = .makeCurrent (activeContext s) ∨
      (∃ w h, c = .glViewport 0 0 w h) ∨ (∃ sz, c = .resize t sz) := by
  intro c hc
  unfold selectCalls at hc
  split at hc
  · simp at hc
    rcases hc with hc | hc | hc
    · exact Or.inl hc
    · exact Or.inr (Or.inl ⟨_, _, hc⟩)
    · exact Or.inr (Or.inr ⟨_, hc⟩)
  · simp at hc
    exact Or.inl hc

theorem reconcileCalls_kinds (s : Engine) :
    ∀ c ∈ reconcileCalls s, c = .setSwapInterval (activeContext s) s.swapInterval ∧
      getSwapInterval (activeContext s) s ≠ s.swapInterval := by
  intro c hc
  unfold reconcileCalls at hc
  split at hc
  · rename_i hne
    simp at hc
    exact ⟨hc, hne⟩
  · simp at hc

/-- Every call a frame makes up to the end of its drain is a context binding, a
swap-interval setting on the frame's context, a viewport setting or a `resize`
on the frame's level. -/
theorem frame_front_kinds (s : Engine) (t : Target) :
    ∀ c ∈ selectCalls s t ++ reconcileCalls s ++ drainCalls t s.events,
      c = .makeCurrent (activeContext s) ∨
      c = .setSwapInterval (activeContext s) s.swapInterval ∨
      (∃ w h, c = .glViewport 0 0 w h) ∨ (∃ sz, c = .resize t sz) := by
  intro c hc
  rcases List.mem_append.mp hc with h | h
  · rcases List.mem_append.mp h with h | h
    · rcases selectCalls_kinds s t c h with h | h | h
      · exact Or.inl h
      · exact Or.inr (Or.inr (Or.inl h))
      · exact Or.inr (Or.inr (Or.inr h))
    · exact Or.inr (Or.inl (reconcileCalls_kinds s c h).1)
  · rcases drainCalls_kinds t s.events c h with h | h
    · exact Or.inr (Or.inr (Or.inl h))
    · exact Or.inr (Or.inr (Or.inr h))

theorem frame_front_plain (s : Engine) (t : Target) :
    ∀ c ∈ selectCalls s t ++ reconcileCalls s ++ drainCalls t s.events,
      c.isDraw = false ∧ c.isUpdate = false ∧
      (∀ t2, c.levelTarget = some t2 → t2 = t) ∧
      (∀ x, c.contextTarget = some x → x = activeContext s) := by
  intro c hc
  rcases frame_front_kinds s t c hc with h | h | ⟨w, h, h2⟩ | ⟨sz, h⟩ <;> subst_vars <;>
    simp [Call.isDraw, Call.isUpdate, Call.levelTarget, Call.contextTarget]

/-- C2: a frame whose level reports an update rate of 0 returns for every
amount of fuel, leaves `levelUpdates` as it was and makes no `update` call,
whatever the clock sample. -/
theorem frame_zero_rate_no_update (fuel : Nat) (now : TimePoint) (s : Engine) (t : Target)
    (hact : activeLevel s = some t) (hrun : s.running = true) (hups : t.getUPS s = 0) :
    ∃ r added, frame fuel now s = .ok r ∧ r.levelUpdates = s.levelUpdates ∧
      r.calls = s.calls ++ added ∧ ∀ c ∈ added, c.isUpdate = false := by
  obtain ⟨r, hr⟩ := frame_returns now hact fuel (fun h => absurd hups h)
  have hsum := frame_summary hact hrun hr
  obtain ⟨rest, hc, hcases⟩ := hsum.calls
  refine ⟨r, _, hr, ?_, hc, ?_⟩
  · rcases hcases with ⟨_, _, h⟩ | ⟨_, k, titles, _, _, h⟩
    · exact h
    · exact (h hups).2
  · intro c hmem
    rcases List.mem_append.mp hmem with h | h
    · exact (frame_front_plain s t c h).2.1
    · rcases hcases with ⟨_, hrest, _⟩ | ⟨_, k, titles, hrest, htitles, hk⟩
      · rw [hrest] at h; simp at h
      · rw [hrest, (hk hups).1] at h
        simp at h
        rcases h with h | h | h | h
        · subst h; rfl
        · subst h; rfl
        · subst h; rfl
        · obtain ⟨ti, hti⟩ := htitles c h
          subst hti; rfl

theorem frame_zero_rate_no_update_witness :
    ∃ r added, frame 0 1000 loadingEngine = .ok r ∧
      r.levelUpdates = loadingEngine.levelUpdates ∧
      r.calls = loadingEngine.calls ++ added ∧ ∀ c ∈ added, c.isUpdate = false :=
  frame_zero_rate_no_update 0 1000 loadingEngine .loadingScreen rfl rfl rfl

/-! ## Window::pollMessages -/

theorem pollMessages_queue (w : Window) (q : List SDL_Event) :
    (w.pollMessages q).queue = q.tail := by
  unfold Window.pollMessages
  cases q with
  | nil => rfl
  | cons ev rest => dsimp only; split <;> rfl

theorem pollMessages_result (w : Window) (ev : SDL_Event) (rest : List SDL_Event) :
    (w.pollMessages (ev :: rest)).result = true := by
  unfold Window.pollMessages
  dsimp only
  split <;> rfl

theorem pollOnce_iterate_queue (w : Window) (q : List SDL_Event) (k : Nat) :
    (pollOnce^[k] (w, q)).2 = q.drop k := by
  induction k with
  | zero => simp
  | succ n ih =>
    rw [Function.iterate_succ_apply']
    show ((pollOnce^[n] (w, q)).1.pollMessages (pollOnce^[n] (w, q)).2).queue = _
    rw [pollMessages_queue, ih, List.tail_drop]

/-- C5: on a queue of N pending events, the calls numbered 0 to N-1 of
`pollMessages` return true and each removes exactly the head of the queue; every
later call returns false with message NOTHING and leaves window and queue as
they are; on an empty queue the first call already does so. -/
theorem pollMessages_drains_queue (w : Window) (q : List SDL_Event) :
    (∀ k, k < q.length →
      ((pollOnce^[k] (w, q)).1.pollMessages (pollOnce^[k] (w, q)).2).result = true ∧
      (pollOnce^[k] (w, q)).2 = q.drop k ∧
      ((pollOnce^[k] (w, q)).1.pollMessages (pollOnce^[k] (w, q)).2).queue = q.drop (k + 1)) ∧
    (∀ k, q.length ≤ k →
      (pollOnce^[k] (w, q)).1.pollMessages (pollOnce^[k] (w, q)).2 =
        { result := false, message := .NOTHING, window := (pollOnce^[k] (w, q)).1,
          queue := [] }) ∧
    w.pollMessages [] = { result := false, message := .NOTHING, window := w, queue := [] } := by
  refine ⟨?_, ?_, rfl⟩
  · intro k hk
    have hq := pollOnce_iterate_queue w q k
    refine ⟨?_, hq, ?_⟩
    · rw [hq]
      obtain ⟨ev, rest, hd⟩ := List.exists_cons_of_ne_nil
        (l := q.drop k) (by simp [List.drop_eq_nil_iff]; omega)
      rw [hd]
      exact pollMessages_result _ ev rest
    · rw [pollMessages_queue, hq, List.tail_drop]
  · intro k hk
    have hq := pollOnce_iterate_queue w q k
    rw [hq, List.drop_eq_nil_of_le hk]
    rfl

theorem pollMessages_drains_queue_witness :
    ((pollOnce^[1] (exampleWindow, [.KEYDOWN 4, .WINDOWEVENT .CLOSE 0 0])).1.pollMessages
        (pollOnce^[1] (exampleWindow, [.KEYDOWN 4, .WINDOWEVENT .CLOSE 0 0])).2).result = true ∧
    ((pollOnce^[2] (exampleWindow, [.KEYDOWN 4, .WINDOWEVENT .CLOSE 0 0])).1.pollMessages
        (pollOnce^[2] (exampleWindow, [.KEYDOWN 4, .WINDOWEVENT .CLOSE 0 0])).2).result = false :=
  ⟨((pollMessages_drains_queue exampleWindow
      [.KEYDOWN 4, .WINDOWEVENT .CLOSE 0 0]).1 1 (by decide)).1,
   by rw [(pollMessages_drains_queue exampleWindow
      [.KEYDOWN 4, .WINDOWEVENT .CLOSE 0 0]).2.1 2 (by decide)]⟩

/-! ## Engine::changeLevel -/

/-- C3: a `changeLevel` request made while `loading` is true returns the state
it was given with one warning line added to the log: `level`, `levelStart`,
`levelUpdates`, `levelNew`, `loading` and the loading-thread handle are as
before, no call is made and no thread is spawned. -/
theorem changeLevel_while_loading (T : Level) (s : Engine) (h : s.loading = true) :
    changeLevel T s = .ok { s with logs := s.logs ++ [.changeLevelAborted T] } := by
  unfold changeLevel
  rw [if_pos h]

theorem changeLevel_while_loading_witness :
    loadingEngine.loading = true ∧
    changeLevel still loadingEngine =
      .ok { loadingEngine with logs := loadingEngine.logs ++ [.changeLevelAborted still] } :=
  ⟨rfl, changeLevel_while_loading still loadingEngine rfl⟩

theorem workerFinish_fresh (T : Level) (s : Engine)
    (h : s.loadingThread = some { T := T, pc := 0, joined := false }) :
    workerFinish s =
      { s with level := some T, levelStart := s.timer.current, levelUpdates := 0,
               levelNew := true, loading := false, workerCurrent := none,
               loadingThread := some { T := T, pc := 7, joined := false },
               workerCalls := s.workerCalls ++ [.makeCurrent .context, .construct T,
                 .construct T, .unbindCurrent .context] } := by
  simp [workerFinish, workerStep, h]

theorem workerStep_loading (T : Level) (s : Engine)
    (h : s.loadingThread = some { T := T, pc := 0, joined := false }) :
    ∀ k, k < 7 → (workerStep^[k] s).loading = s.loading := by
  intro k hk
  interval_cases k <;> simp [workerStep, h]

/-- C4 (amended): from a state with `loading` false that holds no un-joined
thread, `changeLevel` returns with `loading` true and a thread that has not run
a statement yet, the level members untouched. When the thread then runs to its
end, from any state in which it has not started, the state has `level` = the new
level, `levelStart` = the timer's current value in the state the thread runs in
(the value at the request when the thread runs at once), `levelUpdates` = 0,
`levelNew` = true and `loading` = false; `loading` keeps its value through the
first six statements, by which the other four members are already final. -/
theorem changeLevel_then_worker (T : Level) (s : Engine) (h : s.loading = false)
    (hthread : ∀ w, s.loadingThread = some w → w.joined = true) :
    ∃ s1, changeLevel T s = .ok s1 ∧ s1.loading = true ∧
      s1.loadingThread = some { T := T, pc := 0, joined := false } ∧
      s1.level = s.level ∧ s1.levelStart = s.levelStart ∧
      s1.levelUpdates = s.levelUpdates ∧ s1.levelNew = s.levelNew ∧
      (workerFinish s1).levelStart = s.timer.current ∧
      ∀ s2 : Engine, s2.loadingThread = some { T := T, pc := 0, joined := false } →
        (workerFinish s2).level = some T ∧
        (workerFinish s2).levelStart = s2.timer.current ∧
        (workerFinish s2).levelUpdates = 0 ∧
        (workerFinish s2).levelNew = true ∧
        (workerFinish s2).loading = false ∧
        (∀ k, k < 7 → (workerStep^[k] s2).loading = s2.loading) ∧
        (workerStep^[6] s2).level = some T ∧
        (workerStep^[6] s2).levelStart = s2.timer.current ∧
        (workerStep^[6] s2).levelUpdates = 0 ∧
        (workerStep^[6] s2).levelNew = true := by
  have hw : ∀ s2 : Engine, s2.loadingThread = some { T := T, pc := 0, joined := false } →
        (workerFinish s2).level = some T ∧
        (workerFinish s2).levelStart = s2.timer.current ∧
        (workerFinish s2).levelUpdates = 0 ∧
        (workerFinish s2).levelNew = true ∧
        (workerFinish s2).loading = false ∧
        (∀ k, k < 7 → (workerStep^[k] s2).loading = s2.loading) ∧
        (workerStep^[6] s2).level = some T ∧
        (workerStep^[6] s2).levelStart = s2.timer.current ∧
        (workerStep^[6] s2).levelUpdates = 0 ∧
        (workerStep^[6] s2).levelNew = true := by
    intro s2 h2
    rw [workerFinish_fresh T s2 h2]
    refine ⟨rfl, rfl, rfl, rfl, rfl, workerStep_loading T s2 h2, ?_, ?_, ?_, ?_⟩ <;>
      simp [workerStep, h2]
  cases hth : s.loadingThread with
  | none =>
    refine ⟨{ makeCurrent .loading { s with loading := true } with
      loadingThread := some { T := T, pc := 0, joined := false } }, ?_, rfl, rfl, rfl, rfl,
      rfl, rfl, ?_, hw⟩
    · simp [changeLevel, h, makeCurrent, hth]
    · rw [workerFinish_fresh T _ rfl]; rfl
  | some old =>
    have hj := hthread old hth
    refine ⟨{ makeCurrent .loading { s with loading := true } with
      loadingThread := some { T := T, pc := 0, joined := false } }, ?_, rfl, rfl, rfl, rfl,
      rfl, rfl, ?_, hw⟩
    · simp [changeLevel, h, makeCurrent, hth, hj]
    · rw [workerFinish_fresh T _ rfl]; rfl

theorem changeLevel_then_worker_witness :
    ∃ s1, changeLevel menu bootEngine = .ok s1 ∧ s1.loading = true ∧
      (workerFinish s1).levelStart = bootEngine.timer.current :=
  let ⟨s1, h1, h2, _, _, _, _, _, h3, _⟩ :=
    changeLevel_then_worker menu bootEngine rfl (by intro w hw; cases hw)
  ⟨s1, h1, h2, h3⟩

/-- C4 as stated fails: the loading thread reads the timer when its third
statement runs. With the request made at timer value 0 and one frame of the
loading screen sampled at 5 before the thread runs, the thread stores 5. -/
theorem changeLevel_levelStart_counterexample :
    bootEngine.loading = false ∧ bootEngine.timer.current = 0 ∧
    ((changeLevel menu bootEngine).bind (frame 0 5)).map
      (fun s => ((workerFinish s).loading, (workerFinish s).level, (workerFinish s).levelStart)) =
      .ok (false, some menu, 5) := by
  refine ⟨rfl, rfl, ?_⟩
  simp [changeLevel, bootEngine, makeCurrent, Except.bind, Except.map, frame, selectActive,
    reconcileSwapInterval, getSwapInterval, drainMessages, pollWindow, Window.pollMessages,
    fixedUpdate, Target.getUPS, timerUpdate, drawFrame, endFrame, timerReset,
    workerFinish, workerStep]

theorem countP_eq_zero_of_plain (l : List Call)
    (h : ∀ c ∈ l, c.isDraw = false) : l.countP Call.isDraw = 0 := by
  rw [List.countP_eq_zero]
  intro c hc
  simp [h c hc]

/-- C10: a frame whose level pointer is not null returns (given fuel for its
update loop); when it is not ended by a close request it has issued exactly one
`draw`, it has made the frame's context current, and every call it made on a
level object or on a graphics context went to the pair chosen from `loading` at
the start of the frame: the loading screen and the loading context when
`loading` was true, the engine's level and the main context when it was
false. -/
theorem frame_draws_once_on_selected (fuel : Nat) (now : TimePoint) (s : Engine) (t : Target)
    (hact : activeLevel s = some t) (hrun : s.running = true)
    (hfit : t.getUPS s ≠ 0 → updatesFit now s fuel) :
    ∃ r added, frame fuel now s = .ok r ∧ r.calls = s.calls ++ added ∧
      r.running = (!(s.events.any SDL_Event.isClose)) ∧
      (r.running = true →
        added.countP Call.isDraw = 1 ∧
        .makeCurrent (activeContext s) ∈ added ∧
        (∀ c ∈ added, ∀ t2, c.levelTarget = some t2 → t2 = t) ∧
        (∀ c ∈ added, ∀ x, c.contextTarget = some x → x = activeContext s)) ∧
      (s.loading = true → t = .loadingScreen ∧ activeContext s = .loading) ∧
      (s.loading = false → s.level.map Target.level = some t ∧ activeContext s = .context) := by
  obtain ⟨r, hr⟩ := frame_returns now hact fuel hfit
  have hsum := frame_summary hact hrun hr
  obtain ⟨rest, hc, hcases⟩ := hsum.calls
  refine ⟨r, _, hr, hc, hsum.running, ?_, ?_, ?_⟩
  · intro hrr
    rcases hcases with ⟨hf, _, _⟩ | ⟨_, k, titles, hrest, htitles, _⟩
    · rw [hf] at hrr; cases hrr
    · have hfront := frame_front_plain s t
      have hrestp : ∀ c ∈ rest, (c.isDraw = false ∨ c = .draw t (timerUpdate now s.timer)) ∧
          (∀ t2, c.levelTarget = some t2 → t2 = t) ∧
          (∀ x, c.contextTarget = some x → x = activeContext s) := by
        intro c hmem
        rw [hrest] at hmem
        simp at hmem
        rcases hmem with ⟨_, h⟩ | h | h | h | h
        · subst h; simp [Call.isDraw, Call.levelTarget, Call.contextTarget]
        · subst h; simp [Call.isDraw, Call.levelTarget, Call.contextTarget]
        · subst h; simp [Call.isDraw, Call.levelTarget, Call.contextTarget]
        · subst h; simp [Call.isDraw, Call.levelTarget, Call.contextTarget]
        · obtain ⟨ti, hti⟩ := htitles c h
          subst hti; simp [Call.isDraw, Call.levelTarget, Call.contextTarget]
      refine ⟨?_, ?_, ?_, ?_⟩
      · rw [List.countP_append, countP_eq_zero_of_plain _ (fun c h => (hfront c h).1), hrest]
        rw [List.countP_append, List.countP_append,
          countP_eq_zero_of_plain titles (fun c h => by
            obtain ⟨ti, hti⟩ := htitles c h
            subst hti; rfl),
          countP_eq_zero_of_plain (List.replicate k _) (fun c h => by
            rw [List.eq_of_mem_replicate h]; rfl)]
        simp [Call.isDraw]
      · apply List.mem_append_left
        apply List.mem_append_left
        apply List.mem_append_left
        unfold selectCalls
        split <;> simp
      · intro c hmem
        rcases List.mem_append.mp hmem with h | h
        · exact (hfront c h).2.2.1
        · exact (hrestp c h).2.1
      · intro c hmem
        rcases List.mem_append.mp hmem with h | h
        · exact (hfront c h).2.2.2
        · exact (hrestp c h).2.2
  · intro hl
    unfold activeLevel at hact
    rw [if_pos hl] at hact
    cases hact
    exact ⟨rfl, by simp [activeContext, hl]⟩
  · intro hl
    unfold activeLevel at hact
    rw [if_neg (by simp [hl])] at hact
    exact ⟨hact, by simp [activeContext, hl]⟩

theorem frame_draws_once_on_selected_witness :
    ∃ r added, frame 0 3 loadingEngine = .ok r ∧ r.calls = loadingEngine.calls ++ added ∧
      r.running = (!(loadingEngine.events.any SDL_Event.isClose)) ∧
      (r.running = true →
        added.countP Call.isDraw = 1 ∧
        .makeCurrent (activeContext loadingEngine) ∈ added ∧
        (∀ c ∈ added, ∀ t2, c.levelTarget = some t2 → t2 = .loadingScreen) ∧
        (∀ c ∈ added, ∀ x, c.contextTarget = some x → x = activeContext loadingEngine)) ∧
      (loadingEngine.loading = true →
        Target.loadingScreen = .loadingScreen ∧ activeContext loadingEngine = .loading) ∧
      (loadingEngine.loading = false →
        loadingEngine.level.map Target.level = some .loadingScreen ∧
        activeContext loadingEngine = .context) :=
  frame_draws_once_on_selected 0 3 loadingEngine .loadingScreen rfl rfl
    (fun h => absurd rfl h)

theorem any_isClose_of_mem (pre post : List SDL_Event) (a b : Int) :
    (pre ++ .WINDOWEVENT .CLOSE a b :: post).any SDL_Event.isClose = true := by
  simp [SDL_Event.isClose]

theorem runLoop_stopped (fuel : Nat) (inputs : List FrameInput) (s : Engine)
    (h : s.running = false) : runLoop fuel inputs s = .ok s := by
  cases inputs with
  | nil => rfl
  | cons i rest => simp [runLoop, h]

/-- C6 (amended): when the events pending at a frame's drain hold a close
request, the drain stops at the first one: the frame returns with `running`
cleared and the events queued behind the close request still in the queue; it
makes no `update` and no `draw`, and the loop runs no further frame. -/
theorem close_stops_drain_and_loop (fuel : Nat) (i : FrameInput) (later : List FrameInput)
    (s : Engine) (t : Target) (pre post : List SDL_Event) (a b : Int)
    (hact : activeLevel s = some t) (hrun : s.running = true)
    (hev : s.events ++ i.arrivals = pre ++ .WINDOWEVENT .CLOSE a b :: post)
    (hpre : ∀ e ∈ pre, e.isClose = false) :
    ∃ r added, frame fuel i.clock { s with events := s.events ++ i.arrivals } = .ok r ∧
      runLoop fuel (i :: later) s = .ok r ∧
      r.running = false ∧ r.events = post ∧
      r.calls = s.calls ++ added ∧
      ∀ c ∈ added, c.isUpdate = false ∧ c.isDraw = false := by
  have hact2 : activeLevel { s with events := s.events ++ i.arrivals } = some t := hact
  have hfalse : (!(pre ++ SDL_Event.WINDOWEVENT WindowEventID.CLOSE a b :: post).any
      SDL_Event.isClose) = false := by
    rw [any_isClose_of_mem]; rfl
  obtain ⟨s1, s2, hstart, hdrain, hframe⟩ := frame_head hact2
  obtain ⟨r2, hr2, _, _, _, hdr⟩ :=
    drainMessages_spec t s1.events s1 rfl (hstart.running.trans hrun)
  rw [hdrain] at hr2
  cases hr2
  rw [hstart.events] at hdr
  simp only [hev, hfalse] at hdr
  have hr : frame fuel i.clock { s with events := s.events ++ i.arrivals } = .ok s2 := by
    rw [hframe fuel i.clock, if_pos (by simp [hdr])]
  have hsum := frame_summary hact2 hrun hr
  obtain ⟨rest, hc, hcases⟩ := hsum.calls
  refine ⟨s2, _, hr, ?_, hdr, ?_, hc, ?_⟩
  · rw [runLoop, if_pos hrun, hr]
    exact runLoop_stopped fuel later s2 hdr
  · rw [hsum.events]
    simp only [hev]
    exact leftPending_close pre post a b hpre
  · intro c hmem
    rcases hcases with ⟨_, hrest, _⟩ | ⟨hrt, _⟩
    · rw [hrest, List.append_nil] at hmem
      have := frame_front_plain { s with events := s.events ++ i.arrivals } t c hmem
      exact ⟨this.2.1, this.1⟩
    · rw [hdr] at hrt; cases hrt

theorem close_stops_drain_and_loop_witness :
    ∃ r added,
      frame 0 1 { menuEngine with events := menuEngine.events ++
        [.WINDOWEVENT .CLOSE 0 0, .WINDOWEVENT .FOCUS_LOST 0 0] } = .ok r ∧
      runLoop 0 [{ arrivals := [.WINDOWEVENT .CLOSE 0 0, .WINDOWEVENT .FOCUS_LOST 0 0],
                   clock := 1 }] menuEngine = .ok r ∧
      r.running = false ∧ r.events = [.WINDOWEVENT .FOCUS_LOST 0 0] ∧
      r.calls = menuEngine.calls ++ added ∧
      ∀ c ∈ added, c.isUpdate = false ∧ c.isDraw = false :=
  close_stops_drain_and_loop 0
    { arrivals := [.WINDOWEVENT .CLOSE 0 0, .WINDOWEVENT .FOCUS_LOST 0 0], clock := 1 } []
    menuEngine (.level menu) [] [.WINDOWEVENT .FOCUS_LOST 0 0] 0 0 rfl rfl rfl
    (by intro e he; cases he)

/-- C6 as stated fails: with a close request followed by a focus-lost event
pending, `run` returns with the focus-lost event still in the queue, and the
desired swap interval, which handling that event would have set to 1, is 0. -/
theorem close_leaves_later_messages_counterexample :
    (run 0 [{ arrivals := [.WINDOWEVENT .CLOSE 0 0, .WINDOWEVENT .FOCUS_LOST 0 0],
              clock := 1 }] menuEngine).map
      (fun r => (r.running, r.events, r.swapInterval, r.core.window.focus)) =
      .ok (false, [.WINDOWEVENT .FOCUS_LOST 0 0], 0, true) := by
  simp [run, runLoop, menuEngine, bootEngine, frame, selectActive, makeCurrent,
    reconcileSwapInterval, getSwapInterval, drainMessages, pollWindow, Window.pollMessages,
    handleMessage, joinLoadingThread, workerFinish, workerStep, Except.map, exampleWindow,
    timerReset]

/-- C8: `pollMessages` on a size-changed event carrying (w, h) stores (w, h) as
the cached size and reports WINDOWSIZECHANGED; a frame that meets the event in
its drain, in front of any close request, sets the viewport to (0, 0, w, h) and
then calls `resize` on the frame's level with the window at that size, and no
`draw` of the frame comes before these two calls. -/
theorem size_change_resizes_active_level (fuel : Nat) (now : TimePoint) (s : Engine)
    (t : Target) (pre post : List SDL_Event) (w h : Int)
    (hact : activeLevel s = some t) (hrun : s.running = true)
    (hev : s.events = pre ++ .WINDOWEVENT .SIZE_CHANGED w h :: post)
    (hpre : ∀ e ∈ pre, e.isClose = false)
    (hfit : t.getUPS s ≠ 0 → updatesFit now s fuel) :
    (∀ (win : Window) (q : List SDL_Event),
      (win.pollMessages (.WINDOWEVENT .SIZE_CHANGED w h :: q)).result = true ∧
      (win.pollMessages (.WINDOWEVENT .SIZE_CHANGED w h :: q)).message = .WINDOWSIZECHANGED ∧
      (win.pollMessages (.WINDOWEVENT .SIZE_CHANGED w h :: q)).window.size = { x := w, y := h } ∧
      (win.pollMessages (.WINDOWEVENT .SIZE_CHANGED w h :: q)).queue = q) ∧
    ∃ r front back, frame fuel now s = .ok r ∧
      r.calls = s.calls ++
        (front ++ [.glViewport 0 0 w h, .resize t { x := w, y := h }] ++ back) ∧
      ∀ c ∈ front, c.isDraw = false := by
  refine ⟨fun win q => ⟨rfl, rfl, rfl, rfl⟩, ?_⟩
  obtain ⟨r, hr⟩ := frame_returns now hact fuel hfit
  have hsum := frame_summary hact hrun hr
  obtain ⟨rest, hc, _⟩ := hsum.calls
  have hsplit : drainCalls t s.events =
      drainCalls t pre ++ ([.glViewport 0 0 w h, .resize t { x := w, y := h }] ++
        drainCalls t post) := by
    rw [hev, drainCalls_append t pre _ hpre]
    simp [drainCalls, SDL_Event.isClose, eventCalls]
  refine ⟨r, selectCalls s t ++ reconcileCalls s ++ drainCalls t pre,
    drainCalls t post ++ rest, hr, ?_, ?_⟩
  · rw [hc, hsplit]
    simp only [List.append_assoc]
  · intro c hmem
    rcases List.mem_append.mp hmem with h1 | h1
    · exact (frame_front_plain s t c (List.mem_append_left _ h1)).1
    · rcases drainCalls_kinds t pre c h1 with ⟨_, _, h2⟩ | ⟨_, h2⟩ <;> subst h2 <;> rfl

theorem size_change_resizes_active_level_witness :
    (∀ (win : Window) (q : List SDL_Event),
      (win.pollMessages (.WINDOWEVENT .SIZE_CHANGED 800 600 :: q)).result = true ∧
      (win.pollMessages (.WINDOWEVENT .SIZE_CHANGED 800 600 :: q)).message =
        .WINDOWSIZECHANGED ∧
      (win.pollMessages (.WINDOWEVENT .SIZE_CHANGED 800 600 :: q)).window.size =
        { x := 800, y := 600 } ∧
      (win.pollMessages (.WINDOWEVENT .SIZE_CHANGED 800 600 :: q)).queue = q) ∧
    ∃ r front back,
      frame 0 1 resizedEngine = .ok r ∧
      r.calls = resizedEngine.calls ++
        (front ++ [.glViewport 0 0 800 600, .resize .loadingScreen { x := 800, y := 600 }] ++
          back) ∧
      ∀ c ∈ front, c.isDraw = false :=
  size_change_resizes_active_level 0 1 resizedEngine
    .loadingScreen [] [] 800 600 rfl rfl rfl (by intro e he; cases he)
    (fun hne => absurd rfl hne)

/-- C9: in the drain, handling FOCUSLOST sets the desired swap interval to 1
and handling FOCUSGAINED sets it to 0, each without making a call, so the two in
a row leave it at 0 with no `resize`; and a frame reapplies the desired interval
to its context, before its drain, exactly when the context's interval differs
from it, so that the context's interval is the desired one afterwards. -/
theorem focus_sets_desired_interval (fuel : Nat) (now : TimePoint) (s : Engine) (t : Target)
    (hact : activeLevel s = some t) (hrun : s.running = true)
    (hfit : t.getUPS s ≠ 0 → updatesFit now s fuel) :
    (∀ (lvl : Option Target) (d : Engine) (a b : Int) (q : List SDL_Event),
      d.running = true → d.events = .WINDOWEVENT .FOCUS_LOST a b :: q →
      drainMessages lvl d = drainMessages lvl { pollWindow d with swapInterval := 1 } ∧
        (pollWindow d).events = q ∧ (pollWindow d).calls = d.calls ∧
        (pollWindow d).running = true) ∧
    (∀ (lvl : Option Target) (d : Engine) (a b : Int) (q : List SDL_Event),
      d.running = true → d.events = .WINDOWEVENT .FOCUS_GAINED a b :: q →
      drainMessages lvl d = drainMessages lvl { pollWindow d with swapInterval := 0 } ∧
        (pollWindow d).events = q ∧ (pollWindow d).calls = d.calls ∧
        (pollWindow d).running = true) ∧
    (∀ (lvl : Option Target) (d : Engine) (a b a2 b2 : Int) (q : List SDL_Event),
      d.running = true →
      d.events = .WINDOWEVENT .FOCUS_LOST a b :: .WINDOWEVENT .FOCUS_GAINED a2 b2 :: q →
      ∃ d2, drainMessages lvl d = drainMessages lvl d2 ∧ d2.events = q ∧
        d2.swapInterval = 0 ∧ d2.calls = d.calls ∧ d2.running = true) ∧
    ∃ r added, frame fuel now s = .ok r ∧ r.calls = s.calls ++ added ∧
      r.swapInterval = drainInterval s.swapInterval s.events ∧
      (∀ a b a2 b2, s.events =
          [.WINDOWEVENT .FOCUS_LOST a b, .WINDOWEVENT .FOCUS_GAINED a2 b2] →
        r.swapInterval = 0) ∧
      getSwapInterval (activeContext s) r = s.swapInterval ∧
      (∀ c n, .setSwapInterval c n ∈ added ↔
        (c = activeContext s ∧ n = s.swapInterval ∧
          getSwapInterval (activeContext s) s ≠ s.swapInterval)) := by
  have hlost : ∀ (lvl : Option Target) (d : Engine) (a b : Int) (q : List SDL_Event),
      d.running = true → d.events = .WINDOWEVENT .FOCUS_LOST a b :: q →
      drainMessages lvl d = drainMessages lvl { pollWindow d with swapInterval := 1 } ∧
        (pollWindow d).events = q ∧ (pollWindow d).calls = d.calls ∧
        (pollWindow d).running = true := by
    intro lvl d a b q hd he
    obtain ⟨h1, h2⟩ := drainMessages_focusLost lvl d a b q he hd
    exact ⟨h1, h2, rfl, hd⟩
  have hgained : ∀ (lvl : Option Target) (d : Engine) (a b : Int) (q : List SDL_Event),
      d.running = true → d.events = .WINDOWEVENT .FOCUS_GAINED a b :: q →
      drainMessages lvl d = drainMessages lvl { pollWindow d with swapInterval := 0 } ∧
        (pollWindow d).events = q ∧ (pollWindow d).calls = d.calls ∧
        (pollWindow d).running = true := by
    intro lvl d a b q hd he
    obtain ⟨h1, h2⟩ := drainMessages_focusGained lvl d a b q he hd
    exact ⟨h1, h2, rfl, hd⟩
  refine ⟨hlost, hgained, ?_, ?_⟩
  · intro lvl d a b a2 b2 q hd he
    obtain ⟨h1, he1, hc1, hr1⟩ := hlost lvl d a b _ hd he
    obtain ⟨h2, he2, hc2, hr2⟩ :=
      hgained lvl { pollWindow d with swapInterval := 1 } a2 b2 q hr1 he1
    exact ⟨_, h1.trans h2, he2, rfl, hc2.trans hc1, hr2⟩
  · obtain ⟨r, hr⟩ := frame_returns now hact fuel hfit
    have hsum := frame_summary hact hrun hr
    obtain ⟨rest, hc, hcases⟩ := hsum.calls
    refine ⟨r, _, hr, hc, hsum.swapInterval, ?_, hsum.interval, ?_⟩
    · intro a b a2 b2 he
      rw [hsum.swapInterval, he]
      simp [drainInterval, SDL_Event.isClose, eventInterval]
    intro c n
    constructor
    · intro hmem
      have hrest : Call.setSwapInterval c n ∉ rest := by
        rcases hcases with ⟨_, h, _⟩ | ⟨_, k, titles, h, htitles, _⟩
        · rw [h]; simp
        · rw [h]
          simp
          intro hx
          obtain ⟨ti, hti⟩ := htitles _ hx
          cases hti
      rcases List.mem_append.mp hmem with h | h
      · rcases List.mem_append.mp h with h | h
        · rcases List.mem_append.mp h with h | h
          · rcases selectCalls_kinds s t _ h with h | ⟨_, _, h⟩ | ⟨_, h⟩ <;> cases h
          · obtain ⟨h1, h2⟩ := reconcileCalls_kinds s _ h
            cases h1
            exact ⟨rfl, rfl, h2⟩
        · rcases drainCalls_kinds t s.events _ h with ⟨_, _, h⟩ | ⟨_, h⟩ <;> cases h
      · exact absurd h hrest
    · rintro ⟨h1, h2, h3⟩
      subst h1 h2
      apply List.mem_append_left
      apply List.mem_append_left
      apply List.mem_append_right
      simp [reconcileCalls, h3]

theorem focus_sets_desired_interval_witness :
    ∃ r added, frame 0 1 focusEngine = .ok r ∧
      r.calls = focusEngine.calls ++ added ∧
      r.swapInterval = drainInterval focusEngine.swapInterval focusEngine.events ∧
      (∀ a b a2 b2, focusEngine.events =
          [.WINDOWEVENT .FOCUS_LOST a b, .WINDOWEVENT .FOCUS_GAINED a2 b2] →
        r.swapInterval = 0) ∧
      getSwapInterval (activeContext focusEngine) r = focusEngine.swapInterval ∧
      (∀ c n, .setSwapInterval c n ∈ added ↔
        (c = activeContext focusEngine ∧ n = focusEngine.swapInterval ∧
          getSwapInterval (activeContext focusEngine) focusEngine ≠ focusEngine.swapInterval)) :=
  (focus_sets_desired_interval 0 1 focusEngine .loadingScreen rfl rfl
    (fun hne => absurd rfl hne)).2.2.2

theorem reconcile_levelNew (c : ContextId) (s : Engine) :
    (reconcileSwapInterval c s).levelNew = s.levelNew := by
  unfold reconcileSwapInterval
  split
  · cases c <;> rfl
  · rfl

/-- A frame that returns leaves `levelNew` set only if it was a frame of the
loading screen that found it set. -/
theorem frame_levelNew {fuel : Nat} {now : TimePoint} {s r : Engine}
    (hrun : s.running = true) (h : frame fuel now s = .ok r) :
    r.levelNew = (s.loading && s.levelNew) := by
  cases hact : activeLevel s with
  | some t => exact (frame_summary hact hrun h).levelNew
  | none =>
    have hl : s.loading = false := by
      unfold activeLevel at hact
      by_cases hl : s.loading = true
      · rw [if_pos hl] at hact; cases hact
      · simpa using hl
    have hlev : s.level = none := by
      unfold activeLevel at hact
      rw [if_neg (by simp [hl])] at hact
      simpa using hact
    rw [hl, Bool.false_and]
    unfold frame selectActive at h
    rw [if_neg (by simp [hl])] at h
    by_cases hn : s.levelNew = true
    · simp [makeCurrent, hn, hlev] at h
    · have hn2 : (makeCurrent ContextId.context s).levelNew = false := by
        simpa [makeCurrent] using hn
      simp only [hn2, Bool.false_eq_true, if_false] at h
      split at h
      · cases h
      · rename_i s2 hd
        have hk := drainMessages_keeps _ _ s2 hd
        have hs2 : s2.levelNew = false := by
          rw [hk.levelNew, reconcile_levelNew]; exact hn2
        split at h
        · cases h; exact hs2
        · have hnone : (makeCurrent ContextId.context s).level = none := hlev
          simp [hnone] at h

theorem runLoop_levelNew (fuel : Nat) (inputs : List FrameInput) :
    ∀ s r : Engine, s.levelNew = false → runLoop fuel inputs s = .ok r →
      r.levelNew = false := by
  induction inputs with
  | nil =>
    intro s r hs h
    cases h
    exact hs
  | cons i rest ih =>
    intro s r hs h
    rw [runLoop] at h
    by_cases hrun : s.running = true
    · rw [if_pos hrun] at h
      split at h
      · cases h
      · rename_i s1 hf
        have h1 : s1.levelNew = false := by
          rw [frame_levelNew (s := { s with events := s.events ++ i.arrivals }) hrun hf]
          simp [hs]
        exact ih s1 r h1 h
    · rw [if_neg hrun] at h
      cases h
      exact hs

/-- C7: the first frame that runs with `loading` false and `levelNew` set
starts with the main context made current, the viewport set to the window size
and `resize` called on the new level, in front of every other call of the frame
and so of its `draw`; the other `resize` calls of the frame are those answering
size-changed events; the frame clears `levelNew`, and `levelNew` stays cleared
through all later frames of the loop. -/
theorem new_level_resized_once (fuel : Nat) (now : TimePoint) (s : Engine) (l : Level)
    (hload : s.loading = false) (hnew : s.levelNew = true) (hlevel : s.level = some l)
    (hrun : s.running = true) (hfit : l.ups ≠ 0 → updatesFit now s fuel) :
    ∃ r rest, frame fuel now s = .ok r ∧ r.levelNew = false ∧
      r.calls = s.calls ++
        ([.makeCurrent .context,
          .glViewport 0 0 s.core.window.size.x s.core.window.size.y,
          .resize (.level l) s.core.window.size] ++ rest) ∧
      rest.countP Call.isResize = (drainCalls (.level l) s.events).countP Call.isResize ∧
      (∀ (fuel2 : Nat) (inputs : List FrameInput) (r2 : Engine),
        runLoop fuel2 inputs r = .ok r2 → r2.levelNew = false) := by
  have hact : activeLevel s = some (.level l) := by
    simp [activeLevel, hload, hlevel]
  obtain ⟨r, hr⟩ := frame_returns now hact fuel hfit
  have hsum := frame_summary hact hrun hr
  obtain ⟨rest, hc, hcases⟩ := hsum.calls
  have hsel : selectCalls s (.level l) = [.makeCurrent .context,
      .glViewport 0 0 s.core.window.size.x s.core.window.size.y,
      .resize (.level l) s.core.window.size] := by
    simp [selectCalls, hload, hnew, activeContext]
  have hnewr : r.levelNew = false := by rw [hsum.levelNew, hload]; rfl
  have hrec : (reconcileCalls s).countP Call.isResize = 0 := by
    rw [List.countP_eq_zero]
    intro c hmem
    rw [(reconcileCalls_kinds s c hmem).1]
    simp [Call.isResize]
  have hrest : rest.countP Call.isResize = 0 := by
    rw [List.countP_eq_zero]
    intro c hmem
    rcases hcases with ⟨_, h, _⟩ | ⟨_, k, titles, h, htitles, _⟩
    · rw [h] at hmem; cases hmem
    · rw [h] at hmem
      simp at hmem
      rcases hmem with ⟨_, h⟩ | h | h | h | h
      · subst h; simp [Call.isResize]
      · subst h; simp [Call.isResize]
      · subst h; simp [Call.isResize]
      · subst h; simp [Call.isResize]
      · obtain ⟨ti, hti⟩ := htitles c h
        subst hti; simp [Call.isResize]
  refine ⟨r, reconcileCalls s ++ drainCalls (.level l) s.events ++ rest, hr, hnewr, ?_, ?_, ?_⟩
  · rw [hc, hsel]
    simp only [List.append_assoc]
  · rw [List.countP_append, List.countP_append, hrec, hrest]
    simp
  · intro fuel2 inputs r2 h2
    exact runLoop_levelNew fuel2 inputs r r2 hnewr h2

theorem new_level_resized_once_witness :
    ∃ r rest, frame 0 0 freshMenuEngine = .ok r ∧ r.levelNew = false ∧
      r.calls = freshMenuEngine.calls ++
        ([.makeCurrent .context,
          .glViewport 0 0 freshMenuEngine.core.window.size.x
            freshMenuEngine.core.window.size.y,
          .resize (.level menu) freshMenuEngine.core.window.size] ++ rest) ∧
      rest.countP Call.isResize =
        (drainCalls (.level menu) freshMenuEngine.events).countP Call.isResize ∧
      (∀ (fuel2 : Nat) (inputs : List FrameInput) (r2 : Engine),
        runLoop fuel2 inputs r = .ok r2 → r2.levelNew = false) :=
  new_level_resized_once 0 0 freshMenuEngine menu rfl rfl rfl rfl
    (fun _ => ⟨menu, rfl,
      by norm_num [freshMenuEngine, menuEngine, bootEngine, menu, levelUpdatesModulus],
      by norm_num [freshMenuEngine, menuEngine, bootEngine, menu]⟩)

end lys
